import Mathlib

/-!
Verification of the rarity-classification engine of `ord-kafka`
(`src/subcommand/server/rpc.rs` and `src/block_rarity.rs`).

Modelling conventions, used throughout:

* Rust `u64` values are modelled as `Nat`.  The code relies on unchecked
  `u64` arithmetic whose overflow/underflow is a program error (a panic in a
  debug build); every subtraction, addition and `str::parse::<u64>` that can
  leave the `u64` range is therefore modelled as a checked operation in the
  `Option` monad, `none` meaning the panic branch was taken.  Operations
  whose result provably stays in range (`/`, `*` after `/`, `max`, `min`)
  are modelled directly on `Nat`.
* Rust decimal strings (`to_string`, `parse`, `chars().rev()`, slicing,
  `"9".repeat(l)`) are modelled as big-endian digit lists (`List Nat`),
  one element per character.
* Error values (`anyhow!`) carry human-readable messages whose embedded
  numeric values are irrelevant to the claims; the messages are modelled as
  fixed strings.
-/

/-- `bitcoin::constants::COIN_VALUE`: number of sats per bitcoin. -/
def COIN_VALUE : Nat := 100000000

/-- `2^64`, the number of `u64` values; used by the checked-arithmetic model. -/
def u64size : Nat := 18446744073709551616

/-- Big-endian decimal digit list of `n`, the model of `n.to_string()`.
`0` is rendered as `[0]`, matching `"0"`. -/
def digitsBE (n : Nat) : List Nat :=
  if n = 0 then [0] else (Nat.digits 10 n).reverse

/-- Numeric value of a big-endian digit list: the model of parsing a decimal
string (without the `u64` range check, for which see `parse64`). -/
def fromDigits (l : List Nat) : Nat := Nat.ofDigits 10 l.reverse

/-- Model of `str::parse::<u64>()` on a digit string: fails (panics at the
adjoining `unwrap`) when the value does not fit in a `u64`. -/
def parse64 (l : List Nat) : Option Nat :=
  if fromDigits l < u64size then some (fromDigits l) else none

/-- `is_palindrome` from `src/block_rarity.rs`: compares the first and last
characters of the decimal string, then the string with its reversal. -/
def is_palindrome (n : Nat) : Bool :=
  let s := digitsBE n
  if s.head? != s.getLast? then false
  else s == s.reverse

/-- The loop of `get_alpha_from_sat_range`: push `alpha` while `alpha < e`,
stepping by `COIN_VALUE`; the increment `alpha += COIN_VALUE` is checked
`u64` addition. -/
def alphaLoop (e alpha : Nat) : Option (List Nat) :=
  if h : alpha < e then
    if h2 : alpha + COIN_VALUE < u64size then
      (alphaLoop e (alpha + COIN_VALUE)).map (alpha :: ·)
    else none
  else some []
termination_by e - alpha
decreasing_by simp_wf; simp only [COIN_VALUE]; omega

/-- `get_alpha_from_sat_range` from `rpc.rs`: first-in-bucket (whole-coin
boundary) sats in `[start, e)`.  `start - 1` is checked `u64` subtraction
(underflows at `start = 0`), and the initial
`(start - 1) / COIN_VALUE * COIN_VALUE + COIN_VALUE` is a checked addition. -/
def get_alpha_from_sat_range (start e : Nat) : Option (List Nat) :=
  if 1 ≤ start then
    if (start - 1) / COIN_VALUE * COIN_VALUE + COIN_VALUE < u64size then
      alphaLoop e ((start - 1) / COIN_VALUE * COIN_VALUE + COIN_VALUE)
    else none
  else none

/-- The loop of `get_omega_from_sat_range`: push `omega` while
`omega ≥ start`, stepping down by `COIN_VALUE`; the decrement
`omega -= COIN_VALUE` is checked `u64` subtraction. -/
def omegaLoop (start omega : Nat) : Option (List Nat) :=
  if h : start ≤ omega then
    if h2 : COIN_VALUE ≤ omega then
      (omegaLoop start (omega - COIN_VALUE)).map (omega :: ·)
    else none
  else some []
termination_by omega
decreasing_by simp_wf; simp only [COIN_VALUE] at h2 ⊢; omega

/-- `get_omega_from_sat_range` from `rpc.rs`: last-in-bucket sats in
`[start, e)`, emitted descending.  `e / COIN_VALUE * COIN_VALUE - 1` is
checked `u64` subtraction (underflows when `e < COIN_VALUE`). -/
def get_omega_from_sat_range (start e : Nat) : Option (List Nat) :=
  if 1 ≤ e / COIN_VALUE * COIN_VALUE then
    omegaLoop start (e / COIN_VALUE * COIN_VALUE - 1)
  else none

/-- Spec-side description of the Alpha output (§4.4 of the spec, and the
testable property "every value `v` satisfies `v mod U == 0`,
`start ≤ v < end`", emitted ascending and completely): the multiples of
`COIN_VALUE` in `[start, e)` in ascending order. -/
def alphaSpecList (start e : Nat) : List Nat :=
  (List.range' start (e - start)).filter (fun v => v % COIN_VALUE == 0)

/-- Spec-side description of the Omega output: the values `v` with
`(v+1) mod U == 0` in `[start, e)`, in descending order. -/
def omegaSpecList (start e : Nat) : List Nat :=
  ((List.range' start (e - start)).filter (fun v => (v + 1) % COIN_VALUE == 0)).reverse

/-- Largest multiple of `COIN_VALUE` representable in a `u64`; at
`end > alphaOverflowBound` the increment of `get_alpha_from_sat_range`
overflows `u64`. -/
def alphaOverflowBound : Nat := 18446744073700000000

/-! ### Arithmetic and list helpers -/

theorem coin_pos : 0 < COIN_VALUE := by decide

/-- Two strictly ascending lists with the same members are equal. -/
theorem sorted_eq_of_mem_iff {l1 l2 : List Nat} (s1 : l1.Pairwise (· < ·))
    (s2 : l2.Pairwise (· < ·)) (h : ∀ x, x ∈ l1 ↔ x ∈ l2) : l1 = l2 := by
  induction l1 generalizing l2 with
  | nil =>
    cases l2 with
    | nil => rfl
    | cons y ys => exact absurd ((h y).mpr (List.mem_cons_self y ys)) (List.not_mem_nil y)
  | cons x xs ih =>
    cases l2 with
    | nil => exact absurd ((h x).mp (List.mem_cons_self x xs)) (List.not_mem_nil x)
    | cons y ys =>
      have hx : x ∈ y :: ys := (h x).mp (List.mem_cons_self x xs)
      have hy : y ∈ x :: xs := (h y).mpr (List.mem_cons_self y ys)
      have hxy : x = y := by
        rcases List.mem_cons.mp hx with h1 | h1
        · exact h1
        rcases List.mem_cons.mp hy with h2 | h2
        · exact h2.symm
        have := (List.pairwise_cons.mp s1).1 y h2
        have := (List.pairwise_cons.mp s2).1 x h1
        omega
      subst hxy
      have htail : ∀ z, z ∈ xs ↔ z ∈ ys := by
        intro z
        constructor
        · intro hz
          have hlt := (List.pairwise_cons.mp s1).1 z hz
          rcases List.mem_cons.mp ((h z).mp (List.mem_cons.mpr (Or.inr hz))) with h1 | h1
          · omega
          · exact h1
        · intro hz
          have hlt := (List.pairwise_cons.mp s2).1 z hz
          rcases List.mem_cons.mp ((h z).mpr (List.mem_cons.mpr (Or.inr hz))) with h1 | h1
          · omega
          · exact h1
      rw [ih (List.pairwise_cons.mp s1).2 (List.pairwise_cons.mp s2).2 htail]

/-- In a window `(a, a + COIN_VALUE)` above a multiple `a` of `COIN_VALUE`
there is no multiple of `COIN_VALUE`. -/
theorem no_multiple_between {a v : Nat} (ha : a % COIN_VALUE = 0)
    (h1 : a < v) (h2 : v < a + COIN_VALUE) : ¬v % COIN_VALUE = 0 := by
  intro hv
  have hda : COIN_VALUE ∣ a := Nat.dvd_of_mod_eq_zero ha
  have hdv : COIN_VALUE ∣ v := Nat.dvd_of_mod_eq_zero hv
  have : COIN_VALUE ∣ v - a := Nat.dvd_sub' hdv hda
  have := Nat.le_of_dvd (by omega) this
  omega

/-- Between two values `v < w` with `COIN_VALUE ∣ v + 1` and `COIN_VALUE ∣ w + 1`
that are less than `COIN_VALUE` apart there is a contradiction. -/
theorem no_omega_between {v w : Nat} (hw : (w + 1) % COIN_VALUE = 0)
    (hv : (v + 1) % COIN_VALUE = 0) (h1 : v < w) (h2 : w < v + COIN_VALUE) : False := by
  have hdw : COIN_VALUE ∣ w + 1 := Nat.dvd_of_mod_eq_zero hw
  have hdv : COIN_VALUE ∣ v + 1 := Nat.dvd_of_mod_eq_zero hv
  have : COIN_VALUE ∣ (w + 1) - (v + 1) := Nat.dvd_sub' hdw hdv
  have := Nat.le_of_dvd (by omega) this
  omega

/-- Peeling the first multiple of `COIN_VALUE` off a filtered interval that
starts at a multiple. -/
theorem filter_range'_mul_cons (a n : Nat) (hm : a % COIN_VALUE = 0) (hn : 0 < n) :
    (List.range' a n).filter (fun v => v % COIN_VALUE == 0)
      = a :: (List.range' (a + COIN_VALUE) (n - COIN_VALUE)).filter
          (fun v => v % COIN_VALUE == 0) := by
  have hsplit : List.range' a (min COIN_VALUE n) ++ List.range' (a + min COIN_VALUE n)
      (n - min COIN_VALUE n) = List.range' a n := by
    rw [List.range'_append_1]
    congr 1
    omega
  rw [← hsplit, List.filter_append]
  have hmin : 0 < min COIN_VALUE n := by
    have := coin_pos
    omega
  have hfront : List.range' a (min COIN_VALUE n) = a :: List.range' (a + 1) (min COIN_VALUE n - 1) := by
    conv_lhs => rw [show min COIN_VALUE n = (min COIN_VALUE n - 1) + 1 by omega]
    rw [List.range'_succ]
  rw [hfront]
  simp only [List.filter_cons]
  rw [if_pos (by simpa using hm)]
  have htail : (List.range' (a + 1) (min COIN_VALUE n - 1)).filter
      (fun v => v % COIN_VALUE == 0) = [] := by
    rw [List.filter_eq_nil_iff]
    intro v hv
    rw [List.mem_range'_1] at hv
    have := no_multiple_between hm (show a < v by omega) (show v < a + COIN_VALUE by omega)
    simpa using this
  rw [htail]
  by_cases hc : COIN_VALUE ≤ n
  · have h1 : min COIN_VALUE n = COIN_VALUE := by omega
    simp [h1]
  · have h1 : min COIN_VALUE n = n := by omega
    have h2 : n - COIN_VALUE = 0 := by omega
    simp [h1, h2]

/-- Peeling the last qualifying value off a filtered interval ending just
under a multiple of `COIN_VALUE`. -/
theorem filter_range'_omega_concat (s om : Nat) (hm : (om + 1) % COIN_VALUE = 0)
    (hs : s ≤ om) :
    (List.range' s (om + 1 - s)).filter (fun v => (v + 1) % COIN_VALUE == 0)
      = ((List.range' s (om + 1 - COIN_VALUE - s)).filter
          (fun v => (v + 1) % COIN_VALUE == 0)) ++ [om] := by
  set m := om + 1 - COIN_VALUE - s with hmdef
  have hsplit : List.range' s m ++ List.range' (s + m) (om + 1 - s - m) =
      List.range' s (om + 1 - s) := by
    rw [List.range'_append_1]
    congr 1
    omega
  rw [← hsplit, List.filter_append]
  congr 1
  have hk : 0 < om + 1 - s - m := by
    have := coin_pos
    omega
  have hlast : s + m + (om + 1 - s - m - 1) = om := by omega
  have hback : List.range' (s + m) (om + 1 - s - m)
      = List.range' (s + m) (om + 1 - s - m - 1) ++ [om] := by
    conv_lhs => rw [show om + 1 - s - m = (om + 1 - s - m - 1) + 1 by omega]
    rw [List.range'_1_concat]
    congr 2
  rw [hback, List.filter_append]
  have hfrontnil : (List.range' (s + m) (om + 1 - s - m - 1)).filter
      (fun v => (v + 1) % COIN_VALUE == 0) = [] := by
    rw [List.filter_eq_nil_iff]
    intro v hv
    rw [List.mem_range'_1] at hv
    intro hbad
    have hvm : (v + 1) % COIN_VALUE = 0 := by simpa using hbad
    exact no_omega_between hm hvm (by omega) (by have := coin_pos; omega)
  rw [hfrontnil]
  simp [hm]

/-! ### Characterization of the Alpha/Omega loops -/

theorem alphaOverflowBound_facts :
    alphaOverflowBound % COIN_VALUE = 0 ∧ alphaOverflowBound < u64size ∧
      u64size ≤ alphaOverflowBound + COIN_VALUE := by decide

theorem alphaLoop_eq_aux (n : Nat) : ∀ e alpha, e - alpha ≤ n → alpha % COIN_VALUE = 0 →
    e ≤ alphaOverflowBound →
    alphaLoop e alpha
      = some ((List.range' alpha (e - alpha)).filter (fun v => v % COIN_VALUE == 0)) := by
  induction n with
  | zero =>
    intro e alpha hle hm he
    rw [alphaLoop]
    rw [dif_neg (show ¬alpha < e by omega)]
    simp [show e - alpha = 0 by omega]
  | succ n ih =>
    intro e alpha hle hm he
    rw [alphaLoop]
    by_cases h : alpha < e
    · rw [dif_pos h]
      have hble : alpha + COIN_VALUE ≤ alphaOverflowBound := by
        have hdm : COIN_VALUE ∣ alphaOverflowBound - alpha :=
          Nat.dvd_sub' (Nat.dvd_of_mod_eq_zero alphaOverflowBound_facts.1)
            (Nat.dvd_of_mod_eq_zero hm)
        have := Nat.le_of_dvd (show 0 < alphaOverflowBound - alpha by omega) hdm
        omega
      have hov : alpha + COIN_VALUE < u64size := by
        have := alphaOverflowBound_facts.2.1
        omega
      rw [dif_pos hov]
      have hfuel : e - (alpha + COIN_VALUE) ≤ n := by
        have := coin_pos
        omega
      rw [ih e (alpha + COIN_VALUE) hfuel (by simp [Nat.add_mod, hm]) he]
      rw [filter_range'_mul_cons alpha (e - alpha) hm (by omega)]
      rw [show e - alpha - COIN_VALUE = e - (alpha + COIN_VALUE) by omega]
      simp only [Option.map_some']
    · rw [dif_neg h]
      simp [show e - alpha = 0 by omega]

/-- On inputs that stay below `alphaOverflowBound`, the alpha loop collects
exactly the multiples of `COIN_VALUE` in `[alpha, e)`, ascending. -/
theorem alphaLoop_eq (e alpha : Nat) (hm : alpha % COIN_VALUE = 0)
    (he : e ≤ alphaOverflowBound) :
    alphaLoop e alpha
      = some ((List.range' alpha (e - alpha)).filter (fun v => v % COIN_VALUE == 0)) :=
  alphaLoop_eq_aux (e - alpha) e alpha le_rfl hm he

theorem omegaLoop_eq_aux (n : Nat) : ∀ start om, om ≤ n → COIN_VALUE ≤ start →
    (om + 1) % COIN_VALUE = 0 →
    omegaLoop start om
      = some (((List.range' start (om + 1 - start)).filter
          (fun v => (v + 1) % COIN_VALUE == 0)).reverse) := by
  induction n with
  | zero =>
    intro start om hle hs hm
    rw [omegaLoop]
    have hcp := coin_pos
    rw [dif_neg (show ¬start ≤ om by omega)]
    simp [show om + 1 - start = 0 by omega]
  | succ n ih =>
    intro start om hle hs hm
    rw [omegaLoop]
    by_cases h : start ≤ om
    · rw [dif_pos h]
      have h2 : COIN_VALUE ≤ om := by omega
      rw [dif_pos h2]
      have hd : COIN_VALUE ∣ om + 1 := Nat.dvd_of_mod_eq_zero hm
      have hm2 : (om - COIN_VALUE + 1) % COIN_VALUE = 0 := by
        have hdd : COIN_VALUE ∣ om - COIN_VALUE + 1 := by
          rw [show om - COIN_VALUE + 1 = (om + 1) - COIN_VALUE by omega]
          exact Nat.dvd_sub' hd dvd_rfl
        obtain ⟨c, hc⟩ := hdd
        rw [hc]
        exact Nat.mul_mod_right COIN_VALUE c
      have hfuel : om - COIN_VALUE ≤ n := by
        have := coin_pos
        omega
      rw [ih start (om - COIN_VALUE) hfuel hs hm2]
      rw [filter_range'_omega_concat start om hm h]
      rw [show om + 1 - COIN_VALUE - start = om - COIN_VALUE + 1 - start by omega]
      simp [List.reverse_append]
    · rw [dif_neg h]
      simp [show om + 1 - start = 0 by omega]

/-- The omega loop, started at a value `≡ COIN_VALUE - 1 (mod COIN_VALUE)`
with `COIN_VALUE ≤ start`, collects exactly the values `v` with
`COIN_VALUE ∣ v + 1` in `[start, omega]`, descending. -/
theorem omegaLoop_eq (start om : Nat) (hs : COIN_VALUE ≤ start)
    (hm : (om + 1) % COIN_VALUE = 0) :
    omegaLoop start om
      = some (((List.range' start (om + 1 - start)).filter
          (fun v => (v + 1) % COIN_VALUE == 0)).reverse) :=
  omegaLoop_eq_aux om start om le_rfl hs hm

/-- Shifting the left end of a filtered interval across a region where the
predicate is false. -/
theorem filter_range'_congr_left (p : Nat → Bool) (s t e : Nat) (hst : s ≤ t)
    (hfalse : ∀ v, s ≤ v → v < t → p v = false) :
    (List.range' s (e - s)).filter p = (List.range' t (e - t)).filter p := by
  by_cases hcase : t ≤ e
  · have hsplit : List.range' s (t - s) ++ List.range' t (e - t) = List.range' s (e - s) := by
      rw [show (List.range' t (e - t) : List Nat) = List.range' (s + (t - s)) (e - t) by
        congr 1
        omega]
      rw [List.range'_append_1]
      congr 1
      omega
    rw [← hsplit, List.filter_append]
    have hnil : (List.range' s (t - s)).filter p = [] := by
      rw [List.filter_eq_nil_iff]
      intro v hv
      rw [List.mem_range'_1] at hv
      simp [hfalse v (by omega) (by omega)]
    rw [hnil, List.nil_append]
  · have h1 : e - t = 0 := by omega
    rw [h1]
    simp only [List.range'_zero, List.filter_nil]
    rw [List.filter_eq_nil_iff]
    intro v hv
    rw [List.mem_range'_1] at hv
    simp [hfalse v (by omega) (by omega)]

/-- Shifting the right end of a filtered interval across a region where the
predicate is false. -/
theorem filter_range'_congr_right (p : Nat → Bool) (s t e : Nat) (hte : t ≤ e)
    (hfalse : ∀ v, t ≤ v → v < e → p v = false) :
    (List.range' s (e - s)).filter p = (List.range' s (t - s)).filter p := by
  by_cases hcase : s ≤ t
  · have hsplit : List.range' s (t - s) ++ List.range' t (e - t) = List.range' s (e - s) := by
      rw [show (List.range' t (e - t) : List Nat) = List.range' (s + (t - s)) (e - t) by
        congr 1
        omega]
      rw [List.range'_append_1]
      congr 1
      omega
    rw [← hsplit, List.filter_append]
    have hnil : (List.range' t (e - t)).filter p = [] := by
      rw [List.filter_eq_nil_iff]
      intro v hv
      rw [List.mem_range'_1] at hv
      simp [hfalse v (by omega) (by omega)]
    rw [hnil, List.append_nil]
  · have h1 : t - s = 0 := by omega
    rw [h1]
    simp only [List.range'_zero, List.filter_nil]
    rw [List.filter_eq_nil_iff]
    intro v hv
    rw [List.mem_range'_1] at hv
    simp [hfalse v (by omega) (by omega)]

/-- For `1 ≤ start < e ≤ alphaOverflowBound`, `get_alpha_from_sat_range`
returns exactly the spec-side Alpha list. -/
theorem get_alpha_eq (s e : Nat) (h1 : 1 ≤ s) (hse : s < e)
    (he : e ≤ alphaOverflowBound) :
    get_alpha_from_sat_range s e = some (alphaSpecList s e) := by
  rw [get_alpha_from_sat_range, if_pos h1]
  set a0 := (s - 1) / COIN_VALUE * COIN_VALUE + COIN_VALUE with ha0
  have hm : a0 % COIN_VALUE = 0 := by
    rw [ha0]
    simp only [COIN_VALUE]
    omega
  have hb : s ≤ a0 ∧ a0 < u64size := by
    rw [ha0]
    simp only [COIN_VALUE, u64size, alphaOverflowBound] at he hse h1 ⊢
    omega
  have hlow : ∀ v, s ≤ v → v < a0 → ¬v % COIN_VALUE = 0 := by
    intro v hv1 hv2
    rw [ha0] at hv2
    simp only [COIN_VALUE] at hv2 ⊢
    omega
  rw [if_pos hb.2]
  rw [alphaLoop_eq e a0 hm he]
  apply congrArg
  rw [alphaSpecList]
  rw [filter_range'_congr_left _ s a0 e hb.1]
  intro v hv1 hv2
  simp [hlow v hv1 hv2]

/-- For `COIN_VALUE ≤ start < e`, `get_omega_from_sat_range` returns exactly
the spec-side Omega list. -/
theorem get_omega_eq (s e : Nat) (hs : COIN_VALUE ≤ s) (hse : s < e) :
    get_omega_from_sat_range s e = some (omegaSpecList s e) := by
  rw [get_omega_from_sat_range]
  set o0 := e / COIN_VALUE * COIN_VALUE - 1 with ho0
  have hb : 1 ≤ e / COIN_VALUE * COIN_VALUE ∧ (o0 + 1) % COIN_VALUE = 0 ∧ o0 + 1 ≤ e := by
    rw [ho0]
    simp only [COIN_VALUE] at hs hse ⊢
    omega
  have hhigh : ∀ v, o0 < v → v < e → ¬(v + 1) % COIN_VALUE = 0 := by
    intro v hv1 hv2
    rw [ho0] at hv1
    simp only [COIN_VALUE] at hv1 ⊢
    omega
  rw [if_pos hb.1]
  rw [omegaLoop_eq s o0 hs hb.2.1]
  apply congrArg
  rw [omegaSpecList]
  apply congrArg
  rw [filter_range'_congr_right _ s (o0 + 1) e hb.2.2]
  intro v hv1 hv2
  simp [hhigh v (by omega) hv2]

/-! ### Panic branches of the enumerators -/

/-- `get_alpha_from_sat_range(0, e)` takes the `start - 1` underflow branch. -/
theorem get_alpha_zero_none (e : Nat) : get_alpha_from_sat_range 0 e = none := by
  rw [get_alpha_from_sat_range]
  rw [if_neg (by decide)]

/-- At `end > alphaOverflowBound` the alpha increment overflows even though
`COIN_VALUE ≤ start < end`: the concrete instance used by the counterexamples. -/
theorem get_alpha_top_none :
    get_alpha_from_sat_range alphaOverflowBound (u64size - 1) = none := by
  rw [get_alpha_from_sat_range]
  rw [if_pos (by decide), if_pos (by decide)]
  rw [alphaLoop]
  rw [dif_pos (by decide), dif_neg (by decide)]

/-- `get_omega_from_sat_range` underflows computing
`end / COIN_VALUE * COIN_VALUE - 1` when `end < COIN_VALUE`. -/
theorem get_omega_small_none (s e : Nat) (he : e < COIN_VALUE) :
    get_omega_from_sat_range s e = none := by
  rw [get_omega_from_sat_range]
  rw [if_neg]
  simp only [COIN_VALUE] at he ⊢
  omega

theorem omegaLoop_none_aux (n : Nat) : ∀ s om, om ≤ n → s ≤ om → s < COIN_VALUE →
    (om + 1) % COIN_VALUE = 0 → omegaLoop s om = none := by
  induction n with
  | zero =>
    intro s om h1 h2 h3 h4
    exfalso
    simp only [COIN_VALUE] at *
    omega
  | succ n ih =>
    intro s om h1 h2 h3 h4
    rw [omegaLoop, dif_pos h2]
    by_cases h5 : COIN_VALUE ≤ om
    · rw [dif_pos h5]
      rw [ih s (om - COIN_VALUE) (by simp only [COIN_VALUE] at *; omega)
        (by simp only [COIN_VALUE] at *; omega) h3
        (by simp only [COIN_VALUE] at *; omega)]
      rfl
    · rw [dif_neg h5]

/-- `get_omega_from_sat_range`'s loop decrement underflows whenever
`start < COIN_VALUE ≤ end`. -/
theorem get_omega_low_none (s e : Nat) (hs : s < COIN_VALUE) (he : COIN_VALUE ≤ e) :
    get_omega_from_sat_range s e = none := by
  rw [get_omega_from_sat_range]
  have h1 : 1 ≤ e / COIN_VALUE * COIN_VALUE := by
    simp only [COIN_VALUE] at *
    omega
  rw [if_pos h1]
  apply omegaLoop_none_aux (e / COIN_VALUE * COIN_VALUE - 1)
  · exact le_rfl
  · simp only [COIN_VALUE] at *
    omega
  · exact hs
  · simp only [COIN_VALUE] at *
    omega

/-- Membership in the spec-side Alpha list. -/
theorem mem_alphaSpecList (s e v : Nat) :
    v ∈ alphaSpecList s e ↔ v % COIN_VALUE = 0 ∧ s ≤ v ∧ v < e := by
  rw [alphaSpecList]
  simp only [List.mem_filter, List.mem_range'_1, beq_iff_eq]
  constructor
  · rintro ⟨⟨hv1, hv2⟩, hv3⟩
    exact ⟨hv3, hv1, by omega⟩
  · rintro ⟨hv1, hv2, hv3⟩
    exact ⟨⟨hv2, by omega⟩, hv1⟩

/-- Membership in the spec-side Omega list. -/
theorem mem_omegaSpecList (s e v : Nat) :
    v ∈ omegaSpecList s e ↔ (v + 1) % COIN_VALUE = 0 ∧ s ≤ v ∧ v < e := by
  rw [omegaSpecList]
  simp only [List.mem_reverse, List.mem_filter, List.mem_range'_1, beq_iff_eq]
  constructor
  · rintro ⟨⟨hv1, hv2⟩, hv3⟩
    exact ⟨hv3, hv1, by omega⟩
  · rintro ⟨hv1, hv2, hv3⟩
    exact ⟨⟨hv2, by omega⟩, hv1⟩

theorem alphaSpecList_sorted (s e : Nat) : (alphaSpecList s e).Pairwise (· < ·) := by
  rw [alphaSpecList]
  exact (List.pairwise_lt_range' s (e - s) 1 (by omega)).sublist (List.filter_sublist _)

theorem omegaSpecList_sorted (s e : Nat) : (omegaSpecList s e).Pairwise (· > ·) := by
  rw [omegaSpecList]
  rw [List.pairwise_reverse]
  exact (List.pairwise_lt_range' s (e - s) 1 (by omega)).sublist (List.filter_sublist _)

/-! ### Claims C2 and C3 -/

/-- C2 (amended): for `1 ≤ start < end ≤ alphaOverflowBound` the Alpha
enumerator returns exactly the ascending list of multiples of `COIN_VALUE`
in `[start, end)` (each emitted value `v` satisfies `v % U = 0`,
`start ≤ v < end`, the output is ascending, and every qualifying value is
emitted); for `COIN_VALUE ≤ start < end` the Omega enumerator returns
exactly the descending list of values `v` with `(v+1) % U = 0` in
`[start, end)`.  The original claim's unrestricted preconditions fail: see
the counterexample. -/
theorem c2_alpha_omega_enumerators (s e : Nat) :
    (1 ≤ s → s < e → e ≤ alphaOverflowBound →
      get_alpha_from_sat_range s e = some (alphaSpecList s e) ∧
      (∀ v ∈ alphaSpecList s e, v % COIN_VALUE = 0 ∧ s ≤ v ∧ v < e) ∧
      (alphaSpecList s e).Pairwise (· < ·) ∧
      (∀ v, v % COIN_VALUE = 0 → s ≤ v → v < e → v ∈ alphaSpecList s e)) ∧
    (COIN_VALUE ≤ s → s < e →
      get_omega_from_sat_range s e = some (omegaSpecList s e) ∧
      (∀ v ∈ omegaSpecList s e, (v + 1) % COIN_VALUE = 0 ∧ s ≤ v ∧ v < e) ∧
      (omegaSpecList s e).Pairwise (· > ·) ∧
      (∀ v, (v + 1) % COIN_VALUE = 0 → s ≤ v → v < e → v ∈ omegaSpecList s e)) := by
  constructor
  · intro h1 h2 h3
    refine ⟨get_alpha_eq s e h1 h2 h3, ?_, alphaSpecList_sorted s e, ?_⟩
    · intro v hv
      exact (mem_alphaSpecList s e v).mp hv
    · intro v hv1 hv2 hv3
      exact (mem_alphaSpecList s e v).mpr ⟨hv1, hv2, hv3⟩
  · intro h1 h2
    refine ⟨get_omega_eq s e h1 h2, ?_, omegaSpecList_sorted s e, ?_⟩
    · intro v hv
      exact (mem_omegaSpecList s e v).mp hv
    · intro v hv1 hv2 hv3
      exact (mem_omegaSpecList s e v).mpr ⟨hv1, hv2, hv3⟩

theorem c2_alpha_omega_enumerators_witness :
    get_alpha_from_sat_range COIN_VALUE (COIN_VALUE + 2)
        = some (alphaSpecList COIN_VALUE (COIN_VALUE + 2)) ∧
      get_omega_from_sat_range COIN_VALUE (COIN_VALUE + 2)
        = some (omegaSpecList COIN_VALUE (COIN_VALUE + 2)) :=
  ⟨((c2_alpha_omega_enumerators COIN_VALUE (COIN_VALUE + 2)).1
      (by decide) (by decide) (by decide)).1,
    ((c2_alpha_omega_enumerators COIN_VALUE (COIN_VALUE + 2)).2
      (by decide) (by decide)).1⟩

/-- C2 counterexample: at `(start, end) = (0, 1)` the claim demands that
Alpha emit `0` (`ceil(0/U)*U = 0 < 1` qualifies), but the code's `start - 1`
underflows and nothing is returned; at `(1, U+1)` the claim demands that
Omega emit `U-1`, but the loop decrement underflows; at
`(alphaOverflowBound, 2^64-2)` both preconditions `start < end` (and even
`COIN_VALUE ≤ start`) hold yet Alpha's increment overflows. -/
theorem c2_counterexample :
    (alphaSpecList 0 1 = [0] ∧ get_alpha_from_sat_range 0 1 = none) ∧
    ((COIN_VALUE - 1 + 1) % COIN_VALUE = 0 ∧ 1 ≤ COIN_VALUE - 1 ∧
      COIN_VALUE - 1 < COIN_VALUE + 1 ∧
      get_omega_from_sat_range 1 (COIN_VALUE + 1) = none) ∧
    (COIN_VALUE ≤ alphaOverflowBound ∧ alphaOverflowBound < u64size - 1 ∧
      alphaOverflowBound % COIN_VALUE = 0 ∧
      get_alpha_from_sat_range alphaOverflowBound (u64size - 1) = none) := by
  refine ⟨⟨by decide, get_alpha_zero_none 1⟩,
    ⟨by decide, by decide, by decide, get_omega_low_none 1 (COIN_VALUE + 1) (by decide) (by decide)⟩,
    ⟨by decide, by decide, by decide, get_alpha_top_none⟩⟩

/-- C3 (amended): `get_alpha_from_sat_range` underflows at `start = 0`;
`get_omega_from_sat_range` underflows when `end < COIN_VALUE` (initial
subtraction) and when `start < COIN_VALUE ≤ end` (loop decrement).  Under
`COIN_VALUE ≤ start < end` Omega's panic branch is unreachable, and Alpha's
is unreachable given additionally `end ≤ alphaOverflowBound` (for larger
`end` its `u64` increment overflows: see the counterexample). -/
theorem c3_enumerator_preconditions :
    (∀ e, get_alpha_from_sat_range 0 e = none) ∧
    (∀ s e, e < COIN_VALUE → get_omega_from_sat_range s e = none) ∧
    (∀ s e, s < COIN_VALUE → COIN_VALUE ≤ e → get_omega_from_sat_range s e = none) ∧
    (∀ s e, COIN_VALUE ≤ s → s < e → ∃ l, get_omega_from_sat_range s e = some l) ∧
    (∀ s e, COIN_VALUE ≤ s → s < e → e ≤ alphaOverflowBound →
      ∃ l, get_alpha_from_sat_range s e = some l) := by
  refine ⟨get_alpha_zero_none, get_omega_small_none, get_omega_low_none, ?_, ?_⟩
  · intro s e h1 h2
    exact ⟨omegaSpecList s e, get_omega_eq s e h1 h2⟩
  · intro s e h1 h2 h3
    exact ⟨alphaSpecList s e, get_alpha_eq s e (by have := coin_pos; omega) h2 h3⟩

theorem c3_enumerator_preconditions_witness :
    get_alpha_from_sat_range 0 5 = none ∧
    get_omega_from_sat_range 3 5 = none ∧
    get_omega_from_sat_range 5 (2 * COIN_VALUE) = none ∧
    (∃ l, get_omega_from_sat_range COIN_VALUE (COIN_VALUE + 2) = some l) ∧
    (∃ l, get_alpha_from_sat_range COIN_VALUE (COIN_VALUE + 2) = some l) :=
  ⟨c3_enumerator_preconditions.1 5,
    c3_enumerator_preconditions.2.1 3 5 (by decide),
    c3_enumerator_preconditions.2.2.1 5 (2 * COIN_VALUE) (by decide) (by decide),
    c3_enumerator_preconditions.2.2.2.1 COIN_VALUE (COIN_VALUE + 2) (by decide) (by decide),
    c3_enumerator_preconditions.2.2.2.2 COIN_VALUE (COIN_VALUE + 2)
      (by decide) (by decide) (by decide)⟩

/-- C3 counterexample: the claim asserts that under `COIN_VALUE ≤ start < end`
neither enumerator's panic branch is reachable, but at
`start = alphaOverflowBound`, `end = 2^64 - 1` (both valid `u64` values with
`COIN_VALUE ≤ start < end`) the Alpha increment overflows `u64` and the
panic branch is taken. -/
theorem c3_counterexample :
    COIN_VALUE ≤ alphaOverflowBound ∧ alphaOverflowBound < u64size - 1 ∧
      get_alpha_from_sat_range alphaOverflowBound (u64size - 1) = none :=
  ⟨by decide, by decide, get_alpha_top_none⟩

/-! ### Pizza range data (`src/block_rarity.rs`) -/

/-- `PIZZA_RANGES` from `src/block_rarity.rs`: the 847 embedded literal
half-open sat intervals of the pizza transactions. -/
def PIZZA_RANGES : List (Nat × Nat) := [
  (120485000000000, 120490000000000), (155900000000000, 155905000000000), (156145000000000, 156150000000000), (156235000000000, 156240000000000),
  (156375000000000, 156380000000000), (157020000000000, 157025000000000), (181804571000000, 181804572000000), (181804573000000, 181804575000000),
  (181804576000000, 181804577000000), (181804582000000, 181804583000000), (181804584000000, 181804586000000), (181804587000000, 181804589000000),
  (181804592000000, 181804593000000), (181804594000000, 181804595000000), (184110000000000, 184115000000000), (186165000000000, 186170000000000),
  (187189895000000, 187190000000000), (187755000000000, 187757495000000), (192020000000000, 192025000000000), (193765000000000, 193765595000000),
  (198831795000000, 198835000000000), (198955000000000, 198960000000000), (200396095000000, 200396295000000), (202325000000000, 202330000000000),
  (202475000000000, 202480000000000), (202705000000000, 202710000000000), (203485000000000, 203490000000000), (204585000000000, 204589000000000),
  (204589002000000, 204589003000000), (204589004000000, 204589005000000), (204589006000000, 204589008000000), (204589017000000, 204589019000000),
  (204589026000000, 204589028000000), (204589029000000, 204589030000000), (204589032000000, 204589033000000), (204589034000000, 204589035000000),
  (204589037000000, 204589038000000), (204589041000000, 204589043000000), (204589045000000, 204589046000000), (204589061000000, 204589062000000),
  (204589064000000, 204589065000000), (204589066000000, 204589068000000), (204589075000000, 204589077000000), (204589080000000, 204589081000000),
  (204589089000000, 204589090000000), (204589098000000, 204589100000000), (204589102000000, 204589103000000), (204589106000000, 204589107000000),
  (204589108000000, 204589109000000), (204589112000000, 204589113000000), (204589116000000, 204589117000000), (204589119000000, 204589120000000),
  (204589121000000, 204589122000000), (204589125000000, 204589126000000), (204589131000000, 204589132000000), (204589136000000, 204589137000000),
  (204589139000000, 204589140000000), (204589147000000, 204589148000000), (204589151000000, 204589152000000), (204589157000000, 204589158000000),
  (204589161000000, 204589165000000), (204589166000000, 204589167000000), (204589170000000, 204589172000000), (204589174000000, 204589176000000),
  (204589179000000, 204589182000000), (204589184000000, 204589185000000), (204589186000000, 204589189000000), (204589199000000, 204589200000000),
  (204589201000000, 204589203000000), (204589206000000, 204589208000000), (204589214000000, 204589216000000), (204589223000000, 204589226000000),
  (204589234000000, 204589236000000), (204589241000000, 204589243000000), (204589244000000, 204589245000000), (204589252000000, 204589253000000),
  (204589260000000, 204589261000000), (204589262000000, 204589264000000), (204589266000000, 204589268000000), (204589269000000, 204589270000000),
  (204589271000000, 204589272000000), (204589275000000, 204589276000000), (204589277000000, 204589278000000), (204589281000000, 204589283000000),
  (204589284000000, 204589285000000), (204589288000000, 204589289000000), (204589290000000, 204589292000000), (204589294000000, 204589296000000),
  (204589297000000, 204589299000000), (204589301000000, 204589302000000), (204589303000000, 204589304000000), (204589305000000, 204589306000000),
  (204589308000000, 204589310000000), (204589312000000, 204589313000000), (204589314000000, 204589316000000), (204589317000000, 204589319000000),
  (204589320000000, 204589321000000), (204589326000000, 204589327000000), (204589333000000, 204589334000000), (204589335000000, 204589336000000),
  (204589337000000, 204589338000000), (204589347000000, 204589348000000), (204589354000000, 204589355000000), (204589362000000, 204589364000000),
  (204589382000000, 204589383000000), (204589388000000, 204589389000000), (204589391000000, 204589392000000), (204589397000000, 204589398000000),
  (204589402000000, 204589403000000), (204589410000000, 204589411000000), (204589412000000, 204589419000000), (204589424000000, 204589425000000),
  (204589439000000, 204589440000000), (204589441000000, 204589442000000), (204589443000000, 204589444000000), (204589445000000, 204589446000000),
  (204589447000000, 204589448000000), (204589450000000, 204589453000000), (204589454000000, 204589456000000), (204589457000000, 204589460000000),
  (204589463000000, 204589464000000), (204589465000000, 204589470000000), (204589474000000, 204589475000000), (204589484000000, 204589485000000),
  (204589487000000, 204589489000000), (204589492000000, 204589495000000), (204589497000000, 204589498000000), (204589503000000, 204589504000000),
  (204589507000000, 204589509000000), (204589511000000, 204589515000000), (204589517000000, 204589518000000), (204589523000000, 204589524000000),
  (204589526000000, 204589527000000), (204589531000000, 204589532000000), (204589540000000, 204589541000000), (204589543000000, 204589545000000),
  (204589546000000, 204589548000000), (204589549000000, 204589550000000), (204589551000000, 204589552000000), (204589556000000, 204589559000000),
  (204589562000000, 204589563000000), (204589564000000, 204589565000000), (204589570000000, 204589571000000), (204589572000000, 204589573000000),
  (204589575000000, 204589577000000), (204589579000000, 204589580000000), (204589584000000, 204589585000000), (204589592000000, 204589595000000),
  (204589596000000, 204589597000000), (204589606000000, 204589607000000), (204589608000000, 204589609000000), (204589611000000, 204589612000000),
  (204589615000000, 204589616000000), (204589617000000, 204589619000000), (204589624000000, 204589625000000), (204589626000000, 204589627000000),
  (204589632000000, 204589634000000), (204589636000000, 204589638000000), (204589642000000, 204589643000000), (204589645000000, 204589647000000),
  (204589650000000, 204589651000000), (204589657000000, 204589658000000), (204589676000000, 204589677000000), (204589679000000, 204589680000000),
  (204589688000000, 204589689000000), (204589691000000, 204589694000000), (204589708000000, 204589709000000), (204589717000000, 204589718000000),
  (204589719000000, 204589721000000), (204589724000000, 204589725000000), (204589727000000, 204589729000000), (204589731000000, 204589732000000),
  (204589734000000, 204589735000000), (204589742000000, 204589743000000), (204589747000000, 204589748000000), (204589758000000, 204589760000000),
  (204589764000000, 204589765000000), (204589766000000, 204589768000000), (204589769000000, 204589770000000), (204589771000000, 204589774000000),
  (204589780000000, 204589781000000), (204589782000000, 204589786000000), (204589787000000, 204589788000000), (204589792000000, 204589793000000),
  (204589797000000, 204589798000000), (204589799000000, 204589801000000), (204589805000000, 204589806000000), (204589807000000, 204589808000000),
  (204589810000000, 204589811000000), (204589812000000, 204589813000000), (204589817000000, 204589818000000), (204589821000000, 204589824000000),
  (204589832000000, 204589833000000), (204589834000000, 204589835000000), (204589839000000, 204589840000000), (204589846000000, 204589848000000),
  (204589856000000, 204589857000000), (204589858000000, 204589859000000), (204589863000000, 204589864000000), (204589865000000, 204589866000000),
  (204589869000000, 204589870000000), (204589873000000, 204589874000000), (204589875000000, 204589876000000), (204589883000000, 204589884000000),
  (204589886000000, 204589888000000), (204589889000000, 204589890000000), (204589891000000, 204589892000000), (204589893000000, 204589894000000),
  (204589898000000, 204589899000000), (204589900000000, 204589901000000), (204589902000000, 204589905000000), (204589906000000, 204589912000000),
  (204589915000000, 204589916000000), (204589917000000, 204589918000000), (204589919000000, 204589921000000), (204589924000000, 204589925000000),
  (204589927000000, 204589928000000), (204589930000000, 204589931000000), (204589933000000, 204589934000000), (204589937000000, 204589939000000),
  (204589943000000, 204589945000000), (204589949000000, 204589950000000), (204589952000000, 204589953000000), (204589955000000, 204589956000000),
  (204589959000000, 204589961000000), (204589963000000, 204589964000000), (204589968000000, 204589969000000), (204589971000000, 204589972000000),
  (204589975000000, 204589976000000), (204589984000000, 204589987000000), (204589988000000, 204589989000000), (204589990000000, 204589992000000),
  (204589998000000, 204589999000000), (204595000000000, 204600000000000), (205665000000000, 205670000000000), (206160000000000, 206165000000000),
  (233324700000000, 233325000000000), (233491541000000, 233491542000000), (233491544000000, 233491545000000), (233491551000000, 233491552000000),
  (233491554000000, 233491555000000), (233491556000000, 233491558000000), (233491562000000, 233491563000000), (233491565000000, 233491566000000),
  (233491567000000, 233491568000000), (233491572000000, 233491574000000), (233491577000000, 233491578000000), (233491582000000, 233491583000000),
  (233491592000000, 233491593000000), (233491595000000, 233491596000000), (233491597000000, 233491598000000), (233491601000000, 233491602000000),
  (233491608000000, 233491609000000), (233491612000000, 233491613000000), (233491619000000, 233491620000000), (233491622000000, 233491625000000),
  (233491626000000, 233491627000000), (233491629000000, 233491630000000), (233491631000000, 233491632000000), (233491642000000, 233491643000000),
  (233491646000000, 233491647000000), (233491649000000, 233491650000000), (233491653000000, 233491654000000), (233491661000000, 233491662000000),
  (233491663000000, 233491665000000), (233491666000000, 233491668000000), (233491669000000, 233491670000000), (233491671000000, 233491673000000),
  (233491674000000, 233491676000000), (233491679000000, 233491680000000), (233491682000000, 233491683000000), (233491688000000, 233491689000000),
  (233491693000000, 233491694000000), (233491695000000, 233491696000000), (233491700000000, 233491704000000), (233491707000000, 233491709000000),
  (233491715000000, 233491716000000), (233491724000000, 233491726000000), (233491727000000, 233491729000000), (233491736000000, 233491737000000),
  (233491739000000, 233492240000000), (233492246000000, 233492248000000), (233492249000000, 233492250000000), (233492252000000, 233492253000000),
  (233492260000000, 233492261000000), (233492263000000, 233492266000000), (233492274000000, 233492275000000), (233492276000000, 233492277000000),
  (233492278000000, 233492280000000), (233492281000000, 233492282000000), (233492285000000, 233492286000000), (233492287000000, 233492289000000),
  (233492290000000, 233492291000000), (233492292000000, 233492293000000), (233492299000000, 233492300000000), (233492304000000, 233492305000000),
  (233492312000000, 233492313000000), (233492317000000, 233492319000000), (233492320000000, 233492322000000), (233492324000000, 233492326000000),
  (233492333000000, 233492334000000), (233492338000000, 233492339000000), (233492342000000, 233492343000000), (233492350000000, 233492351000000),
  (233492352000000, 233492353000000), (233492359000000, 233492361000000), (233492364000000, 233492366000000), (233492368000000, 233492369000000),
  (233492370000000, 233492371000000), (233492373000000, 233492374000000), (233492376000000, 233492377000000), (233492383000000, 233492384000000),
  (233492393000000, 233492394000000), (233492402000000, 233492403000000), (233492408000000, 233492409000000), (233492410000000, 233492411000000),
  (233492416000000, 233492417000000), (233492418000000, 233492419000000), (233492423000000, 233492426000000), (233492429000000, 233492430000000),
  (233492434000000, 233492437000000), (233492446000000, 233492447000000), (233492448000000, 233492450000000), (233492452000000, 233492453000000),
  (233492455000000, 233492457000000), (233492466000000, 233492467000000), (233492468000000, 233492469000000), (233492472000000, 233492473000000),
  (233492475000000, 233492476000000), (233492478000000, 233492479000000), (233492481000000, 233492482000000), (233492483000000, 233492485000000),
  (233492489000000, 233492490000000), (233492494000000, 233492495000000), (233492497000000, 233492499000000), (233492501000000, 233492503000000),
  (233492514000000, 233492515000000), (233492522000000, 233492523000000), (233492527000000, 233492530000000), (233492531000000, 233492532000000),
  (233492535000000, 233492536000000), (233492540000000, 233495000000000), (235110000000000, 235115000000000), (235675000000000, 235676240000000),
  (235676281000000, 235676541000000), (235676543000000, 235676545000000), (235676552000000, 235676553000000), (235676554000000, 235676555000000),
  (235676559000000, 235676560000000), (235676565000000, 235676566000000), (235676567000000, 235676569000000), (235676570000000, 235676571000000),
  (235676573000000, 235676574000000), (235676575000000, 235676577000000), (235676578000000, 235676579000000), (235676580000000, 235676581000000),
  (235676582000000, 235676583000000), (235676585000000, 235676586000000), (235676587000000, 235676588000000), (235676590000000, 235676591000000),
  (235676593000000, 235676595000000), (235676599000000, 235676600000000), (235676601000000, 235676602000000), (235676613000000, 235676614000000),
  (235676623000000, 235676624000000), (235676625000000, 235676626000000), (235676635000000, 235677240000000), (237545000000000, 237550000000000),
  (237775000000000, 237780000000000), (237795000000000, 237800000000000), (239530000000000, 239535000000000), (239590000000000, 239595000000000),
  (239655000000000, 239660000000000), (239765000000000, 239770000000000), (240205000000000, 240210000000000), (241070000000000, 241075000000000),
  (243435000000000, 243440000000000), (243930000000000, 243935000000000), (244310000000000, 244315000000000), (246210000000000, 246210536000000),
  (246210541000000, 246211424000000), (246211426000000, 246211427000000), (246211436000000, 246211440000000), (246211441000000, 246211442000000),
  (246211444000000, 246211445000000), (246211460000000, 246211462000000), (246211465000000, 246211466000000), (246211473000000, 246211474000000),
  (246211477000000, 246211478000000), (246211479000000, 246211480000000), (246211484000000, 246211485000000), (246211487000000, 246211490000000),
  (246211495000000, 246211497000000), (246211500000000, 246211502000000), (246211507000000, 246211508000000), (246211512000000, 246211513000000),
  (246211514000000, 246211515000000), (246211518000000, 246211520000000), (246211525000000, 246211526000000), (246211532000000, 246211533000000),
  (246211535000000, 246211536000000), (246211539000000, 246211541000000), (248800000000000, 248805000000000), (248855000000000, 248860000000000),
  (249050000000000, 249055000000000), (249175000000000, 249176301000000), (249176303000000, 249176304000000), (249176306000000, 249176307000000),
  (249176313000000, 249176314000000), (249176319000000, 249176321000000), (249176323000000, 249176324000000), (249176325000000, 249176326000000),
  (249176329000000, 249176330000000), (249176348000000, 249176349000000), (249176352000000, 249176353000000), (249176354000000, 249176356000000),
  (249176358000000, 249176359000000), (249176362000000, 249176363000000), (249176366000000, 249176367000000), (249176371000000, 249176372000000),
  (249176374000000, 249176375000000), (249176378000000, 249176379000000), (249176386000000, 249176387000000), (249176389000000, 249176390000000),
  (249176394000000, 249176395000000), (249176396000000, 249176397000000), (249176399000000, 249176400000000), (249176402000000, 249176403000000),
  (249176404000000, 249176406000000), (249176407000000, 249176408000000), (249176412000000, 249176413000000), (249176415000000, 249176418000000),
  (249176420000000, 249176421000000), (249176435000000, 249176436000000), (249176438000000, 249176440000000), (249176448000000, 249176449000000),
  (249176450000000, 249176451000000), (249176457000000, 249176461000000), (249176465000000, 249176466000000), (249176467000000, 249176469000000),
  (249176476000000, 249176477000000), (249176480000000, 249176481000000), (249176484000000, 249176485000000), (249176486000000, 249176488000000),
  (249176497000000, 249176499000000), (249176502000000, 249176503000000), (249176504000000, 249176508000000), (249176512000000, 249176513000000),
  (249176518000000, 249176519000000), (249176521000000, 249176523000000), (249176525000000, 249176527000000), (249176529000000, 249176530000000),
  (249176541000000, 249176542000000), (249176549000000, 249176551000000), (249176552000000, 249176553000000), (249176556000000, 249176557000000),
  (249176560000000, 249176561000000), (249176562000000, 249176564000000), (249176579000000, 249176580000000), (249176581000000, 249176582000000),
  (249176583000000, 249176584000000), (249176588000000, 249176589000000), (249176590000000, 249176591000000), (249176592000000, 249176594000000),
  (249176598000000, 249176599000000), (249176602000000, 249176603000000), (249176605000000, 249176607000000), (249176611000000, 249176612000000),
  (249176617000000, 249176618000000), (249176620000000, 249176621000000), (249176624000000, 249176625000000), (249176626000000, 249176628000000),
  (249176634000000, 249176635000000), (249176639000000, 249176641000000), (249176642000000, 249176643000000), (249176645000000, 249176646000000),
  (249176650000000, 249176651000000), (249176654000000, 249176655000000), (249176660000000, 249176662000000), (249176667000000, 249176668000000),
  (249176671000000, 249176672000000), (249176673000000, 249176674000000), (249176676000000, 249176677000000), (249176678000000, 249176680000000),
  (249176686000000, 249176687000000), (249176690000000, 249176691000000), (249176694000000, 249176695000000), (249176696000000, 249176698000000),
  (249176900000000, 249180000000000), (249330000000000, 249332000000000), (249334000000000, 249334400000000), (249375000000000, 249380000000000),
  (249640002000000, 249640004000000), (249640008000000, 249640009000000), (249640010000000, 249640012000000), (249640014000000, 249640015000000),
  (249640021000000, 249640022000000), (249640024000000, 249640027000000), (249640029000000, 249640030000000), (249640032000000, 249640033000000),
  (249640035000000, 249640036000000), (249640038000000, 249640039000000), (249640041000000, 249640043000000), (249640047000000, 249640048000000),
  (249640051000000, 249640053000000), (249640061000000, 249640062000000), (249640065000000, 249640066000000), (249640067000000, 249640072000000),
  (249640076000000, 249640077000000), (249640080000000, 249640083000000), (249640088000000, 249640089000000), (249640090000000, 249640091000000),
  (249640093000000, 249640094000000), (249640096000000, 249640097000000), (249640098000000, 249640099000000), (249640100000000, 249640402000000),
  (249640404000000, 249640406000000), (249640411000000, 249640412000000), (249640413000000, 249640415000000), (249640418000000, 249640419000000),
  (249640420000000, 249640422000000), (249640432000000, 249640433000000), (249640434000000, 249640435000000), (249640436000000, 249640437000000),
  (249640444000000, 249640445000000), (249640449000000, 249640450000000), (249640454000000, 249640456000000), (249640458000000, 249640459000000),
  (249640467000000, 249640469000000), (249640476000000, 249640477000000), (249640478000000, 249640480000000), (249640485000000, 249640487000000),
  (249640488000000, 249640489000000), (249640492000000, 249640494000000), (249640498000000, 249640499000000), (249641000000000, 249641101000000),
  (249641102000000, 249641103000000), (249641106000000, 249641107000000), (249641111000000, 249641113000000), (249641119000000, 249641120000000),
  (249641124000000, 249641125000000), (249641128000000, 249641129000000), (249641133000000, 249641135000000), (249641140000000, 249641142000000),
  (249641145000000, 249641146000000), (249641149000000, 249641150000000), (249641151000000, 249641152000000), (249641153000000, 249641155000000),
  (249641157000000, 249641158000000), (249641164000000, 249641166000000), (249641167000000, 249641168000000), (249641170000000, 249641171000000),
  (249641172000000, 249641173000000), (249641175000000, 249641176000000), (249641180000000, 249641181000000), (249641182000000, 249641183000000),
  (249641184000000, 249641185000000), (249641186000000, 249641187000000), (249641193000000, 249641194000000), (249641196000000, 249641197000000),
  (249641199000000, 249641300000000), (249641303000000, 249641306000000), (249641309000000, 249641310000000), (249641316000000, 249641317000000),
  (249641320000000, 249641321000000), (249641327000000, 249641328000000), (249641329000000, 249641330000000), (249641331000000, 249641337000000),
  (249641344000000, 249641347000000), (249641350000000, 249641351000000), (249641352000000, 249641353000000), (249641357000000, 249641358000000),
  (249641359000000, 249641360000000), (249641362000000, 249641365000000), (249641370000000, 249641371000000), (249641373000000, 249641374000000),
  (249641375000000, 249641376000000), (249641377000000, 249641379000000), (249641381000000, 249641382000000), (249641389000000, 249641390000000),
  (249641391000000, 249641392000000), (249641395000000, 249641397000000), (249641399000000, 249642200000000), (249643700000000, 249644029000000),
  (249644200000000, 249645000000000), (249930000000000, 249934995000000), (250100000000000, 250105000000000), (250785000000000, 250790000000000),
  (250990000000000, 250995000000000), (251050000000000, 251055000000000), (251090006000000, 251090008000000), (251090011000000, 251090012000000),
  (251090014000000, 251090015000000), (251090017000000, 251090018000000), (251090020000000, 251090021000000), (251090025000000, 251090026000000),
  (251090028000000, 251090029000000), (251090036000000, 251090037000000), (251090041000000, 251090042000000), (251090044000000, 251090046000000),
  (251090051000000, 251090052000000), (251090054000000, 251090056000000), (251090061000000, 251090062000000), (251090069000000, 251090073000000),
  (251090080000000, 251090081000000), (251090083000000, 251090084000000), (251090095000000, 251090096000000), (251090097000000, 251090099000000),
  (251090101000000, 251090103000000), (251090104000000, 251090105000000), (251090108000000, 251090110000000), (251090113000000, 251090114000000),
  (251090115000000, 251090116000000), (251090118000000, 251090120000000), (251090122000000, 251090123000000), (251090124000000, 251090125000000),
  (251090132000000, 251090133000000), (251090138000000, 251090139000000), (251090144000000, 251090145000000), (251090150000000, 251090151000000),
  (251090155000000, 251090157000000), (251090163000000, 251090164000000), (251090167000000, 251090168000000), (251090169000000, 251090170000000),
  (251090172000000, 251090173000000), (251090174000000, 251090175000000), (251090176000000, 251090177000000), (251090178000000, 251090179000000),
  (251090183000000, 251090184000000), (251090189000000, 251090193000000), (251090194000000, 251090197000000), (251090205000000, 251090206000000),
  (251090209000000, 251090211000000), (251090217000000, 251090218000000), (251090219000000, 251090220000000), (251090221000000, 251090223000000),
  (251090225000000, 251090226000000), (251090229000000, 251090231000000), (251090234000000, 251090236000000), (251090243000000, 251090244000000),
  (251090246000000, 251090247000000), (251090248000000, 251090249000000), (251090256000000, 251090257000000), (251090258000000, 251090259000000),
  (251090264000000, 251090265000000), (251090268000000, 251090270000000), (251090275000000, 251090276000000), (251090285000000, 251090286000000),
  (251090288000000, 251090290000000), (251090300000000, 251090301000000), (251090303000000, 251090304000000), (251090305000000, 251090306000000),
  (251090308000000, 251090309000000), (251090310000000, 251090311000000), (251090320000000, 251090321000000), (251090326000000, 251090327000000),
  (251090328000000, 251090330000000), (251090334000000, 251090335000000), (251090341000000, 251090342000000), (251090351000000, 251090352000000),
  (251090355000000, 251090358000000), (251090359000000, 251090360000000), (251090363000000, 251090364000000), (251090369000000, 251090371000000),
  (251090374000000, 251090376000000), (251090381000000, 251090383000000), (251090386000000, 251090387000000), (251090391000000, 251090392000000),
  (251090394000000, 251090395000000), (251090396000000, 251090397000000), (251090398000000, 251095000000000), (251890000000000, 251895000000000),
  (252240000000000, 252245000000000), (252310000000000, 252315000000000), (252700000000000, 252705000000000), (253405000000000, 253410000000000),
  (253935000000000, 253940000000000), (254090000000000, 254095000000000), (254240000000000, 254245000000000), (254955000000000, 254960000000000),
  (255910000000000, 255915000000000), (255980000000000, 255985000000000), (256215000000000, 256220000000000), (256445000000000, 256450000000000),
  (256625000000000, 256630000000000), (256850000000000, 256855000000000), (256855000000000, 256860000000000), (257020000000000, 257025000000000),
  (257045001000000, 257045005000000), (257045015000000, 257045017000000), (257045018000000, 257045019000000), (257045022000000, 257045023000000),
  (257045026000000, 257045027000000), (257045030000000, 257045031000000), (257045033000000, 257045034000000), (257045041000000, 257045043000000),
  (257045044000000, 257045045000000), (257045051000000, 257045052000000), (257045054000000, 257045055000000), (257045058000000, 257045059000000),
  (257045063000000, 257045064000000), (257045067000000, 257045068000000), (257045072000000, 257045075000000), (257045080000000, 257045081000000),
  (257045083000000, 257045084000000), (257045087000000, 257045088000000), (257045090000000, 257050000000000), (257470000000000, 257475000000000),
  (257485000000000, 257490000000000), (257700000000000, 257705000000000), (258030000000000, 258035000000000), (258395000000000, 258395100000000),
  (258715000000000, 258720000000000), (258740000000000, 258745000000000), (258970000000000, 258975000000000), (259010000000000, 259015000000000),
  (259280000000000, 259285000000000), (260575000000000, 260580000000000), (260580000000000, 260585000000000), (260620000000000, 260625000000000),
  (260764000000000, 260765000000000), (261560000000000, 261565000000000), (261700000000000, 261705000000000), (262005000000000, 262010000000000),
  (263080000000000, 263081500000000), (263084000000000, 263084500000000), (265675000000000, 265680000000000), (265685000000000, 265690000000000),
  (265915000000000, 265920000000000), (267295000000000, 267300000000000), (267390000000000, 267395000000000), (267560000000000, 267565000000000),
  (268250000000000, 268255000000000), (268335000000000, 268340000000000), (268390000000000, 268395000000000), (268675000000000, 268680000000000),
  (269075000000000, 269080000000000), (271725000000000, 271730000000000), (272150000000000, 272155000000000), (272155000000000, 272160000000000),
  (272195000000000, 272200000000000), (272200000000000, 272205000000000), (272505000000000, 272510000000000), (276210000000000, 276215000000000),
  (276495000000000, 276500000000000), (276955000000000, 276960000000000), (277100000000000, 277105000000000), (277185000000000, 277190000000000),
  (278660000000000, 278665000000000), (278715000000000, 278720000000000), (278720000000000, 278725000000000), (278830000000000, 278835000000000),
  (278980000000000, 278985000000000), (279080000000000, 279085000000000), (279140000000000, 279145000000000), (279350000000000, 279355000000000),
  (279360000000000, 279365000000000), (279405000000000, 279410000000000), (279465000000000, 279470000000000), (279495000000000, 279500000000000),
  (279510000000000, 279515000000000), (279880000000000, 279885000000000), (280070000000000, 280075000000000), (280075000000000, 280080000000000),
  (280090000000000, 280095000000000), (280095000000000, 280100000000000), (280140000000000, 280145000000000), (280150000000000, 280155000000000),
  (280160000000000, 280165000000000), (280170000000000, 280175000000000), (280265000000000, 280270000000000), (280290000000000, 280295000000000),
  (280305000000000, 280310000000000), (280330000000000, 280335000000000), (280345000000000, 280350000000000), (280385000000000, 280390000000000),
  (280390000000000, 280395000000000), (280420000000000, 280425000000000), (280445000000000, 280450000000000), (280480000000000, 280485000000000),
  (280520000000000, 280525000000000), (280555000000000, 280560000000000), (280585000000000, 280590000000000), (280625000000000, 280630000000000),
  (280630000000000, 280635000000000), (280635000000000, 280640000000000), (280680000000000, 280685000000000), (280750000000000, 280755000000000),
  (280760000000000, 280765000000000), (280810000000000, 280815000000000), (280820000000000, 280825000000000), (280835000000000, 280840000000000),
  (280840000000000, 280845000000000), (280845000000000, 280850000000000), (280850000000000, 280855000000000), (280910000000000, 280915000000000),
  (280915000000000, 280920000000000), (280930000000000, 280935000000000), (280940000000000, 280945000000000), (280945000000000, 280950000000000),
  (280980000000000, 280985000000000), (280995000000000, 281000000000000), (281005000000000, 281010000000000), (281070000000000, 281075000000000),
  (281095000000000, 281100000000000), (281100000000000, 281105000000000), (281740000000000, 281745000000000), (281755000000000, 281760000000000),
  (281770000000000, 281775000000000), (281780000000000, 281785000000000), (281805000000000, 281810000000000), (281840000000000, 281845000000000),
  (281860000000000, 281865000000000), (281870000000000, 281875000000000), (281910000000000, 281915000000000), (281970000000000, 281975000000000),
  (281995000000000, 282000000000000), (282000000000000, 282005000000000), (282030000000000, 282035000000000), (282035000000000, 282040000000000),
  (282060000000000, 282065000000000), (282065000000000, 282070000000000), (282520000000000, 282525000000000), (282535000000000, 282540000000000),
  (282560000000000, 282565000000000), (282605000000000, 282610000000000), (282655000000000, 282660000000000), (282665000000000, 282670000000000),
  (282695000000000, 282700000000000), (282730000000000, 282735000000000), (282755000000000, 282760000000000), (282775000000000, 282780000000000),
  (282815000000000, 282820000000000), (282885000000000, 282890000000000), (282945000000000, 282950000000000), (282960000000000, 282965000000000),
  (282985000000000, 282990000000000), (282990000000000, 282995000000000), (282995000000000, 283000000000000), (283620000000000, 283625000000000),
  (283740000000000, 283745000000000), (283755000000000, 283760000000000), (283840000000000, 283845000000000), (283885000000000, 283889901000000),
  (283915000000000, 283920000000000), (283930000000000, 283935000000000), (283935000000000, 283940000000000)
  ]

/-- `PIZZA_RANGE_MAP` from `src/block_rarity.rs`: buckets `PIZZA_RANGES` by
`start / (50 * COIN_VALUE)` (the `lazy_static` `HashMap` is modelled as the
lookup function it computes; `entry(..).or_insert(..).push(..)` preserves the
literal order inside each bucket, which is exactly what `List.filter` yields). -/
def PIZZA_RANGE_MAP (h : Nat) : List (Nat × Nat) :=
  PIZZA_RANGES.filter (fun r => r.1 / (50 * COIN_VALUE) == h)

/-- Boolean check of the pizza-data invariant: every interval is nonempty
(`start < end`) and consecutive intervals satisfy `end_i ≤ start_{i+1}`. -/
def rangeListOK : List (Nat × Nat) → Bool
  | [] => true
  | [r] => decide (r.1 < r.2)
  | r :: q :: rest => (decide (r.1 < r.2) && decide (r.2 ≤ q.1)) && rangeListOK (q :: rest)

theorem rangeListOK_spec : ∀ l : List (Nat × Nat), rangeListOK l = true →
    (∀ r ∈ l, r.1 < r.2) ∧ l.Chain' (fun a b => a.2 ≤ b.1) := by
  intro l
  induction l with
  | nil => intro _; exact ⟨by simp, List.chain'_nil⟩
  | cons a t ih =>
    intro hok
    cases t with
    | nil =>
      simp only [rangeListOK, decide_eq_true_eq] at hok
      exact ⟨by simpa using hok, List.chain'_singleton a⟩
    | cons b t2 =>
      simp only [rangeListOK, Bool.and_eq_true, decide_eq_true_eq] at hok
      obtain ⟨⟨h1, h2⟩, h3⟩ := hok
      have hih := ih h3
      constructor
      · intro r hr
        rcases List.mem_cons.mp hr with h | h
        · subst h; exact h1
        · exact hih.1 r h
      · exact (List.chain'_cons'.mpr ⟨fun y hy => by simp at hy; rw [← hy]; exact h2, hih.2⟩)

/-- Lifting the adjacent-chain invariant to full pairwise disjointness and
strict ordering. -/
theorem rangeList_pairwise : ∀ l : List (Nat × Nat), (∀ r ∈ l, r.1 < r.2) →
    l.Chain' (fun a b => a.2 ≤ b.1) →
    l.Pairwise (fun a b => a.1 < b.1 ∧ a.2 ≤ b.1) := by
  intro l
  induction l with
  | nil => intro _ _; exact List.Pairwise.nil
  | cons a t ih =>
    intro hlt hch
    have hch2 : t.Chain' (fun x y => x.2 ≤ y.1) := hch.tail
    have hpt : t.Pairwise (fun x y => x.1 < y.1 ∧ x.2 ≤ y.1) :=
      ih (fun r hr => hlt r (List.mem_cons_of_mem a hr)) hch2
    refine List.pairwise_cons.mpr ⟨?_, hpt⟩
    intro b hb
    have halt : a.1 < a.2 := hlt a (List.mem_cons_self a t)
    cases t with
    | nil => simp at hb
    | cons c t2 =>
      have hac : a.2 ≤ c.1 := by
        have := List.chain'_cons.mp hch
        exact this.1
      rcases List.mem_cons.mp hb with h | h
      · subst h
        exact ⟨by omega, hac⟩
      · have hcb : c.1 < b.1 ∧ c.2 ≤ b.1 := (List.pairwise_cons.mp hpt).1 b h
        have hclt : c.1 < c.2 := hlt c (List.mem_cons_of_mem a (List.mem_cons_self c t2))
        exact ⟨by omega, by omega⟩

set_option maxRecDepth 100000 in
theorem pizza_ranges_check : rangeListOK PIZZA_RANGES = true := by rfl

theorem pizza_ranges_pairwise :
    PIZZA_RANGES.Pairwise (fun a b => a.1 < b.1 ∧ a.2 ≤ b.1) :=
  rangeList_pairwise PIZZA_RANGES (rangeListOK_spec PIZZA_RANGES pizza_ranges_check).1
    (rangeListOK_spec PIZZA_RANGES pizza_ranges_check).2

theorem pizza_ranges_nonempty : ∀ r ∈ PIZZA_RANGES, r.1 < r.2 :=
  (rangeListOK_spec PIZZA_RANGES pizza_ranges_check).1

/-! ### Claim C8: the pizza RangeTable invariant -/

/-- C8: every bucket of `PIZZA_RANGE_MAP` is sorted strictly ascending by
interval start and pairwise non-overlapping (as half-open intervals), every
entry of a bucket is keyed by `start / (50 * COIN_VALUE)`, and the map holds
exactly the literal `PIZZA_RANGES` pairs (each pair placed in the bucket of
its start).  The map value is a pure function of the literal data, built
once (`lazy_static`) and never mutated. -/
theorem c8_pizza_range_map_invariant :
    (∀ h, (PIZZA_RANGE_MAP h).Pairwise (fun r1 r2 => r1.1 < r2.1 ∧ r1.2 ≤ r2.1)) ∧
    (∀ h, ∀ r, r ∈ PIZZA_RANGE_MAP h → r.1 / (50 * COIN_VALUE) = h) ∧
    (∀ r, r ∈ PIZZA_RANGES → r ∈ PIZZA_RANGE_MAP (r.1 / (50 * COIN_VALUE))) ∧
    (∀ h, ∀ r, r ∈ PIZZA_RANGE_MAP h → r ∈ PIZZA_RANGES) := by
  refine ⟨?_, ?_, ?_, ?_⟩
  · intro h
    exact pizza_ranges_pairwise.sublist (List.filter_sublist _)
  · intro h r hr
    rw [PIZZA_RANGE_MAP, List.mem_filter] at hr
    exact beq_iff_eq.mp hr.2
  · intro r hr
    rw [PIZZA_RANGE_MAP, List.mem_filter]
    exact ⟨hr, beq_iff_eq.mpr rfl⟩
  · intro h r hr
    rw [PIZZA_RANGE_MAP, List.mem_filter] at hr
    exact hr.1

set_option maxRecDepth 100000 in
theorem c8_pizza_range_map_invariant_witness :
    ((120485000000000, 120490000000000) : Nat × Nat).1 / (50 * COIN_VALUE) = 24097 ∧
      ((120485000000000, 120490000000000) : Nat × Nat) ∈ PIZZA_RANGE_MAP 24097 ∧
      ((120485000000000, 120490000000000) : Nat × Nat) ∈ PIZZA_RANGES := by
  have h2 := c8_pizza_range_map_invariant.2.2.1 (120485000000000, 120490000000000)
    (by decide)
  refine ⟨c8_pizza_range_map_invariant.2.1 24097 (120485000000000, 120490000000000) ?_,
    ?_, by decide⟩
  · have : (120485000000000 : Nat) / (50 * COIN_VALUE) = 24097 := by decide
    rw [← this]
    exact h2
  · have : (120485000000000 : Nat) / (50 * COIN_VALUE) = 24097 := by decide
    rw [← this]
    exact h2

/-! ### Chunk algebra (the Pizza / Legacy / Hitman evaluator loop) -/

/-- The curated-interval intersection loop shared verbatim by the `Pizza`,
`Legacy` and `Hitman` arms of `get_block_rarity_chunks`: for each curated
interval, skip it when `start ≥ range.1 || end ≤ range.0`, otherwise push
`(max(range.0, start), min(range.1, end))`, preserving order. -/
def sat_range_chunks (ranges : List (Nat × Nat)) (s e : Nat) : List (Nat × Nat) :=
  ranges.filterMap (fun r =>
    if s ≥ r.2 ∨ e ≤ r.1 then none else some (max r.1 s, min r.2 e))

/-- C5: over any curated interval table satisfying the RangeTable invariant
(each interval nonempty, sorted ascending and pairwise disjoint — verified
concretely for the pizza table in the C8 theorem) and any query `[s, e)`
with `s < e`: the union of the returned chunks is the intersection of
`[s, e)` with the table's intervals, the chunks are pairwise disjoint and
ascending, none is empty, and the output is exactly the skip/emit map over
the curated list in curated order. -/
theorem c5_chunk_algebra (ranges : List (Nat × Nat)) (s e : Nat)
    (hne : ∀ r ∈ ranges, r.1 < r.2)
    (hsorted : ranges.Pairwise (fun r1 r2 => r1.1 < r2.1 ∧ r1.2 ≤ r2.1))
    (hse : s < e) :
    (∀ x, (∃ c ∈ sat_range_chunks ranges s e, c.1 ≤ x ∧ x < c.2)
        ↔ (s ≤ x ∧ x < e ∧ ∃ r ∈ ranges, r.1 ≤ x ∧ x < r.2)) ∧
    (sat_range_chunks ranges s e).Pairwise (fun c1 c2 => c1.2 ≤ c2.1) ∧
    (∀ c ∈ sat_range_chunks ranges s e, c.1 < c.2) ∧
    sat_range_chunks ranges s e
      = (ranges.filter (fun r => !(decide (s ≥ r.2) || decide (e ≤ r.1)))).map
          (fun r => (max r.1 s, min r.2 e)) := by
  refine ⟨?_, ?_, ?_, ?_⟩
  · intro x
    constructor
    · rintro ⟨c, hc, hx1, hx2⟩
      rw [sat_range_chunks, List.mem_filterMap] at hc
      obtain ⟨r, hr, hfr⟩ := hc
      by_cases hskip : s ≥ r.2 ∨ e ≤ r.1
      · rw [if_pos hskip] at hfr
        exact absurd hfr (by simp)
      · rw [if_neg hskip] at hfr
        obtain rfl := Option.some_inj.mp hfr
        have h1 : max r.1 s ≤ x := hx1
        have h2 : x < min r.2 e := hx2
        exact ⟨by omega, by omega, r, hr, by omega, by omega⟩
    · rintro ⟨hx1, hx2, r, hr, hr1, hr2⟩
      refine ⟨(max r.1 s, min r.2 e), ?_, by simp; omega, by simp; omega⟩
      rw [sat_range_chunks, List.mem_filterMap]
      exact ⟨r, hr, by rw [if_neg (by omega)]⟩
  · rw [sat_range_chunks, List.pairwise_filterMap]
    have hstep := List.Pairwise.imp_of_mem
      (l := ranges)
      (R := fun r1 r2 => r1.1 < r2.1 ∧ r1.2 ≤ r2.1)
      (S := fun r1 r2 => r1.1 < r2.1 ∧ r1.2 ≤ r2.1 ∧ r1.1 < r1.2 ∧ r2.1 < r2.2)
      (fun ha hb hab => ⟨hab.1, hab.2, hne _ ha, hne _ hb⟩) hsorted
    refine hstep.imp ?_
    intro r1 r2 h12 c hc d hd
    by_cases hs1 : s ≥ r1.2 ∨ e ≤ r1.1
    · rw [if_pos hs1] at hc
      simp at hc
    by_cases hs2 : s ≥ r2.2 ∨ e ≤ r2.1
    · rw [if_pos hs2] at hd
      simp at hd
    rw [if_neg hs1] at hc
    rw [if_neg hs2] at hd
    simp only [Option.mem_def, Option.some_inj] at hc hd
    rw [← hc, ← hd]
    simp only []
    omega
  · intro c hc
    rw [sat_range_chunks, List.mem_filterMap] at hc
    obtain ⟨r, hr, hfr⟩ := hc
    by_cases hskip : s ≥ r.2 ∨ e ≤ r.1
    · rw [if_pos hskip] at hfr
      simp at hfr
    · rw [if_neg hskip] at hfr
      have := hne r hr
      rw [← Option.some_inj.mp hfr]
      simp only []
      omega
  · rw [sat_range_chunks]
    induction ranges with
    | nil => rfl
    | cons r t ih =>
      rw [List.filterMap_cons, List.filter_cons]
      by_cases hskip : s ≥ r.2 ∨ e ≤ r.1
      · rw [if_pos hskip]
        have hb : (!(decide (s ≥ r.2) || decide (e ≤ r.1))) = false := by
          rcases hskip with h | h <;> simp [h]
        rw [hb]
        simp only [Bool.false_eq_true, if_false]
        exact ih (fun x hx => hne x (List.mem_cons_of_mem r hx))
          (List.pairwise_cons.mp hsorted).2
      · rw [if_neg hskip]
        push_neg at hskip
        have hb : (!(decide (s ≥ r.2) || decide (e ≤ r.1))) = true := by
          simp
          omega
        rw [hb]
        simp only [if_true, List.map_cons]
        rw [ih (fun x hx => hne x (List.mem_cons_of_mem r hx))
          (List.pairwise_cons.mp hsorted).2]

theorem c5_chunk_algebra_witness :
    (∀ x, (∃ c ∈ sat_range_chunks [(2, 5), (7, 9)] 3 8, c.1 ≤ x ∧ x < c.2)
        ↔ (3 ≤ x ∧ x < 8 ∧ ∃ r ∈ ([(2, 5), (7, 9)] : List (Nat × Nat)), r.1 ≤ x ∧ x < r.2)) ∧
    (sat_range_chunks [(2, 5), (7, 9)] 3 8).Pairwise (fun c1 c2 => c1.2 ≤ c2.1) ∧
    (∀ c ∈ sat_range_chunks [(2, 5), (7, 9)] 3 8, c.1 < c.2) ∧
    sat_range_chunks [(2, 5), (7, 9)] 3 8
      = (([(2, 5), (7, 9)] : List (Nat × Nat)).filter
          (fun r => !(decide (3 ≥ r.2) || decide (8 ≤ r.1)))).map
          (fun r => (max r.1 3, min r.2 8)) :=
  c5_chunk_algebra [(2, 5), (7, 9)] 3 8 (by decide) (by decide) (by decide)

/-! ### `BlockRarity` serialization (`src/block_rarity.rs`) -/

/-- The `BlockRarity` enum of `src/block_rarity.rs` (seven variants). -/
inductive BlockRarity where
  | Vintage
  | Nakamoto
  | FirstTransaction
  | Pizza
  | Block9
  | Block78
  | Palindrome
deriving DecidableEq

/-- The `Display` implementation of `BlockRarity`. -/
def BlockRarity.fmt : BlockRarity → String
  | .Vintage => "vintage"
  | .Nakamoto => "nakamoto"
  | .FirstTransaction => "firsttransaction"
  | .Palindrome => "palindrome"
  | .Pizza => "pizza"
  | .Block9 => "block9"
  | .Block78 => "block78"

/-- The `FromStr` implementation of `BlockRarity`: a fixed-token match with
an `anyhow!("invalid rarity: {s}")` fallback. -/
def BlockRarity.from_str (s : String) : Except String BlockRarity :=
  if s = "vintage" then .ok .Vintage
  else if s = "nakamoto" then .ok .Nakamoto
  else if s = "firsttransaction" then .ok .FirstTransaction
  else if s = "palindrome" then .ok .Palindrome
  else if s = "pizza" then .ok .Pizza
  else if s = "block9" then .ok .Block9
  else if s = "block78" then .ok .Block78
  else .error ("invalid rarity: " ++ s)

/-- The fixed token set of the `BlockRarity` serialization. -/
def blockRarityTokens : List String :=
  ["vintage", "nakamoto", "firsttransaction", "palindrome", "pizza", "block9", "block78"]

/-- C10: parsing the lowercase serialization token of any kind round-trips,
and every string outside the fixed token set is rejected with an error. -/
theorem c10_block_rarity_tokens :
    (∀ r : BlockRarity, BlockRarity.from_str r.fmt = .ok r) ∧
    (∀ s : String, s ∉ blockRarityTokens →
      BlockRarity.from_str s = .error ("invalid rarity: " ++ s)) := by
  constructor
  · intro r
    cases r <;> rfl
  · intro s hs
    simp only [blockRarityTokens, List.mem_cons, List.not_mem_nil, or_false, not_or] at hs
    obtain ⟨h1, h2, h3, h4, h5, h6, h7⟩ := hs
    rw [BlockRarity.from_str]
    rw [if_neg h1, if_neg h2, if_neg h3, if_neg h4, if_neg h5, if_neg h6, if_neg h7]

theorem c10_block_rarity_tokens_witness :
    BlockRarity.from_str (BlockRarity.fmt .Pizza) = .ok .Pizza ∧
      BlockRarity.from_str "zzz" = .error ("invalid rarity: " ++ "zzz") :=
  ⟨c10_block_rarity_tokens.1 .Pizza,
    c10_block_rarity_tokens.2 "zzz" (by decide)⟩

/-! ### The palindrome enumerator (`rpc.rs`) -/

/-- The mirror construction of the `get_palindrome` closure in
`get_palindromes_from_equal_length_range`:
`sig_digits + reverse(sig_digits)[middle..]` (dropping the first mirrored
character when the length is odd). -/
def getPalindromeList (mid : Bool) (sig : List Nat) : List Nat :=
  sig ++ (sig.reverse.drop (if mid then 1 else 0))

/-- The interior candidate pass
`(A+1..B).map(|num| get_palindrome(&num.to_string())).collect()`; each
`parse::<u64>().unwrap()` inside `get_palindrome` is checked. -/
def palsOfRange (mid : Bool) : List Nat → Option (List Nat)
  | [] => some []
  | k :: ks =>
    match parse64 (getPalindromeList mid (digitsBE k)) with
    | none => none
    | some p => (palsOfRange mid ks).map (p :: ·)

/-- `get_palindromes_from_equal_length_range` from `rpc.rs`, on the digit
lists of the two equal-length decimal strings. -/
def get_palindromes_from_equal_length_range (ss es : List Nat) : Option (List Nat) :=
  match parse64 (ss.take ((ss.length + 1) / 2)) with
  | none => none
  | some A =>
  match parse64 (es.take ((ss.length + 1) / 2)) with
  | none => none
  | some B =>
  match parse64 ss with
  | none => none
  | some a =>
  match parse64 es with
  | none => none
  | some b =>
  match parse64 (getPalindromeList (ss.length % 2 == 1) (ss.take ((ss.length + 1) / 2))) with
  | none => none
  | some first =>
  match palsOfRange (ss.length % 2 == 1) (List.range' (A + 1) (B - (A + 1))) with
  | none => none
  | some interior =>
    if ss.take ((ss.length + 1) / 2) ≠ es.take ((ss.length + 1) / 2) then
      match parse64 (getPalindromeList (ss.length % 2 == 1)
          (es.take ((ss.length + 1) / 2))) with
      | none => none
      | some last =>
        some ((if a ≤ first ∧ first ≤ b then [first] else []) ++ interior
          ++ (if a ≤ last ∧ last ≤ b then [last] else []))
    else
      some ((if a ≤ first ∧ first ≤ b then [first] else []) ++ interior)

/-- The `for range in equal_length_ranges { palindromes.extend(..) }` loop of
`get_palindromes_from_sat_range`. -/
def palRangesLoop : List (List Nat × List Nat) → Option (List Nat)
  | [] => some []
  | r :: rs =>
    match get_palindromes_from_equal_length_range r.1 r.2 with
    | none => none
    | some ps => (palRangesLoop rs).map (ps ++ ·)

/-- `get_palindromes_from_sat_range` from `rpc.rs`: all palindromic integers
in the inclusive range `[start, e]`, via maximal equal-digit-length pieces
(`[start, 9…9]`, full lengths in between, `[10…0, e]`). -/
def get_palindromes_from_sat_range (start e : Nat) : Option (List Nat) :=
  let ss := digitsBE start
  let es := digitsBE e
  let ranges : List (List Nat × List Nat) :=
    if ss.length = es.length then [(ss, es)]
    else [(ss, List.replicate ss.length 9)]
      ++ (List.range' (ss.length + 1) (es.length - (ss.length + 1))).map
          (fun i => (1 :: List.replicate (i - 1) 0, List.replicate i 9))
      ++ [(1 :: List.replicate (es.length - 1) 0, es)]
  palRangesLoop ranges

/-! ### Decimal digit lemmas -/

theorem fromDigits_nil : fromDigits [] = 0 := rfl

theorem fromDigits_single (d : Nat) : fromDigits [d] = d := by
  simp [fromDigits, Nat.ofDigits]

theorem fromDigits_append (x y : List Nat) :
    fromDigits (x ++ y) = fromDigits x * 10 ^ y.length + fromDigits y := by
  rw [fromDigits, List.reverse_append, Nat.ofDigits_append]
  rw [fromDigits, fromDigits]
  simp [List.length_reverse]
  ring

theorem fromDigits_lt (l : List Nat) (h : ∀ d ∈ l, d < 10) :
    fromDigits l < 10 ^ l.length := by
  rw [fromDigits, ← List.length_reverse]
  exact Nat.ofDigits_lt_base_pow_length (by norm_num)
    (fun d hd => h d (List.mem_reverse.mp hd))

theorem fromDigits_cons_ge (d : Nat) (t : List Nat) :
    d * 10 ^ t.length ≤ fromDigits (d :: t) := by
  have : (d :: t) = [d] ++ t := rfl
  rw [this, fromDigits_append, fromDigits_single]
  omega

theorem digitsBE_zero : digitsBE 0 = [0] := rfl

theorem fromDigits_digitsBE (n : Nat) : fromDigits (digitsBE n) = n := by
  by_cases h : n = 0
  · subst h; rfl
  · rw [digitsBE, if_neg h, fromDigits, List.reverse_reverse]
    exact Nat.ofDigits_digits 10 n

theorem digitsBE_digits_lt (n : Nat) : ∀ d ∈ digitsBE n, d < 10 := by
  by_cases h : n = 0
  · subst h; intro d hd; simp [digitsBE] at hd; omega
  · rw [digitsBE, if_neg h]
    intro d hd
    exact Nat.digits_lt_base (by norm_num) (List.mem_reverse.mp hd)

theorem digitsBE_ne_nil (n : Nat) : digitsBE n ≠ [] := by
  by_cases h : n = 0
  · subst h; simp [digitsBE]
  · rw [digitsBE, if_neg h]
    simp only [ne_eq, List.reverse_eq_nil_iff]
    exact Nat.digits_ne_nil_iff_ne_zero.mpr h

theorem getLast_eq_of_append {l m : List Nat} {b : Nat} (hne : l ≠ [])
    (h : l = m ++ [b]) : l.getLast hne = b := by
  have h1 : l.getLast? = some (l.getLast hne) := List.getLast?_eq_getLast _ hne
  have h2 : l.getLast? = some b := by
    rw [h]
    exact List.getLast?_concat _
  rw [h1] at h2
  exact Option.some_inj.mp h2

theorem digitsBE_headI_ne_zero (n : Nat) (hn : n ≠ 0) : (digitsBE n).headI ≠ 0 := by
  rw [digitsBE, if_neg hn]
  have hne : Nat.digits 10 n ≠ [] := Nat.digits_ne_nil_iff_ne_zero.mpr hn
  have hlast := Nat.getLast_digit_ne_zero 10 hn
  rcases List.eq_nil_or_concat (Nat.digits 10 n) with hcase | ⟨L2, b, hLb⟩
  · exact absurd hcase hne
  · rw [List.concat_eq_append] at hLb
    have hb : b ≠ 0 := by
      rw [getLast_eq_of_append hne hLb] at hlast
      exact hlast
    rw [hLb, List.reverse_append]
    simpa using hb

theorem digitsBE_length_pos (n : Nat) : 0 < (digitsBE n).length := by
  have := digitsBE_ne_nil n
  cases h : digitsBE n with
  | nil => exact absurd h this
  | cons a t => simp

theorem lt_pow_digitsBE_length (n : Nat) : n < 10 ^ (digitsBE n).length := by
  conv_lhs => rw [← fromDigits_digitsBE n]
  exact fromDigits_lt _ (digitsBE_digits_lt n)

theorem pow_le_of_digitsBE (n : Nat) (hn : n ≠ 0) :
    10 ^ ((digitsBE n).length - 1) ≤ n := by
  have hne := digitsBE_ne_nil n
  have hh := digitsBE_headI_ne_zero n hn
  cases h : digitsBE n with
  | nil => exact absurd h hne
  | cons d t =>
    rw [h] at hh
    simp only [List.headI] at hh
    have h1 : d * 10 ^ t.length ≤ fromDigits (d :: t) := fromDigits_cons_ge d t
    have h2 : fromDigits (d :: t) = n := by rw [← h, fromDigits_digitsBE]
    have h3 : 1 ≤ d := by omega
    have h4 : (d :: t).length - 1 = t.length := by simp
    rw [h4]
    calc 10 ^ t.length = 1 * 10 ^ t.length := by ring
    _ ≤ d * 10 ^ t.length := Nat.mul_le_mul_right _ h3
    _ ≤ n := by omega

theorem digitsBE_length_le (n L : Nat) (hL : 1 ≤ L) (h : n < 10 ^ L) :
    (digitsBE n).length ≤ L := by
  by_contra hc
  push_neg at hc
  by_cases hn : n = 0
  · subst hn; simp [digitsBE] at hc; omega
  · have := pow_le_of_digitsBE n hn
    have hmono : 10 ^ L ≤ 10 ^ ((digitsBE n).length - 1) :=
      Nat.pow_le_pow_right (by norm_num) (by omega)
    omega

theorem le_digitsBE_length (n L : Nat) (h : 10 ^ (L - 1) ≤ n) :
    L ≤ (digitsBE n).length := by
  by_cases hL : L ≤ 1
  · have := digitsBE_length_pos n
    omega
  · by_contra hc
    push_neg at hc
    have h2 := lt_pow_digitsBE_length n
    have hmono : 10 ^ (digitsBE n).length ≤ 10 ^ (L - 1) :=
      Nat.pow_le_pow_right (by norm_num) (by omega)
    omega

theorem digitsBE_length_mono {m n : Nat} (h : m ≤ n) :
    (digitsBE m).length ≤ (digitsBE n).length := by
  by_cases hm : m = 0
  · subst hm
    have h1 := digitsBE_length_pos n
    rw [digitsBE_zero]
    simpa using h1
  · apply le_digitsBE_length
    calc 10 ^ ((digitsBE m).length - 1) ≤ m := pow_le_of_digitsBE m hm
    _ ≤ n := h

/-- The canonical-digits round trip: printing a parsed canonical digit string
gives the string back. -/
theorem digitsBE_fromDigits (l : List Nat) (hne : l ≠ []) (hd : ∀ d ∈ l, d < 10)
    (hh : l.headI ≠ 0) : digitsBE (fromDigits l) = l := by
  cases l with
  | nil => exact absurd rfl hne
  | cons d t =>
    simp only [List.headI] at hh
    have hpos : fromDigits (d :: t) ≠ 0 := by
      have h1 := fromDigits_cons_ge d t
      have h2 : 1 ≤ d := by omega
      have h3 : 1 ≤ 10 ^ t.length := Nat.one_le_pow _ _ (by norm_num)
      have : 1 ≤ d * 10 ^ t.length := Nat.mul_le_mul h2 h3 |>.trans_eq' (by ring)
      omega
    rw [digitsBE, if_neg hpos, fromDigits]
    rw [Nat.digits_ofDigits 10 (by norm_num) _ ?hlt ?hlast]
    · exact List.reverse_reverse _
    case hlt =>
      intro x hx
      exact hd x (List.mem_reverse.mp hx)
    case hlast =>
      intro hrev
      rw [getLast_eq_of_append hrev
        (show (d :: t).reverse = t.reverse ++ [d] by simp)]
      exact hh

/-- Comparing equal-length digit strings by their length-`P` prefixes:
a strictly smaller prefix forces a strictly smaller value. -/
theorem fromDigits_lt_of_take {x y : List Nat} (hlen : x.length = y.length)
    (hdx : ∀ d ∈ x, d < 10) (P : Nat)
    (h : fromDigits (x.take P) < fromDigits (y.take P)) :
    fromDigits x < fromDigits y := by
  calc fromDigits x
      = fromDigits (x.take P) * 10 ^ (x.drop P).length + fromDigits (x.drop P) := by
        conv_lhs => rw [← List.take_append_drop P x]
        rw [fromDigits_append]
  _ < (fromDigits (x.take P) + 1) * 10 ^ (x.drop P).length := by
        have hxb : fromDigits (x.drop P) < 10 ^ (x.drop P).length :=
          fromDigits_lt _ (fun d hd => hdx d (List.mem_of_mem_drop hd))
        rw [Nat.succ_mul]
        omega
  _ ≤ fromDigits (y.take P) * 10 ^ (x.drop P).length := Nat.mul_le_mul_right _ (by omega)
  _ ≤ fromDigits y := by
        conv_rhs => rw [← List.take_append_drop P y]
        rw [fromDigits_append]
        have hdl : (x.drop P).length = (y.drop P).length := by simp [hlen]
        rw [hdl]
        omega

/-- Value order transfers to prefix order (equal lengths, valid digits). -/
theorem take_le_of_fromDigits_le {x y : List Nat} (hlen : x.length = y.length)
    (hdy : ∀ d ∈ y, d < 10) (P : Nat) (h : fromDigits x ≤ fromDigits y) :
    fromDigits (x.take P) ≤ fromDigits (y.take P) := by
  by_contra hc
  push_neg at hc
  have := fromDigits_lt_of_take hlen.symm hdy P hc
  omega

/-! ### The mirror construction -/

theorem getPalindromeList_take (mid : Bool) (sig : List Nat) :
    (getPalindromeList mid sig).take sig.length = sig := by
  rw [getPalindromeList]
  exact List.take_left sig _

theorem getPalindromeList_length (mid : Bool) (sig : List Nat) :
    (getPalindromeList mid sig).length
      = sig.length + (sig.length - (if mid then 1 else 0)) := by
  rw [getPalindromeList]
  simp

theorem getPalindromeList_digits_lt (mid : Bool) (sig : List Nat)
    (h : ∀ d ∈ sig, d < 10) : ∀ d ∈ getPalindromeList mid sig, d < 10 := by
  intro d hd
  rw [getPalindromeList, List.mem_append] at hd
  rcases hd with h1 | h1
  · exact h d h1
  · exact h d (List.mem_reverse.mp (List.mem_of_mem_drop h1))

/-- Dropping from a reversed list is reversing a shortened take. -/
theorem reverse_drop_eq (l : List Nat) (i : Nat) :
    l.reverse.drop i = (l.take (l.length - i)).reverse := by
  have h : (l.reverse.drop i).reverse = List.take (l.reverse.length - i) l.reverse.reverse :=
    List.reverse_drop
  rw [List.reverse_reverse, List.length_reverse] at h
  calc l.reverse.drop i = (l.reverse.drop i).reverse.reverse := by
        rw [List.reverse_reverse]
  _ = (l.take (l.length - i)).reverse := by rw [h]

/-- The mirror construction produces a decimal palindrome. -/
theorem getPalindromeList_reverse (mid : Bool) (sig : List Nat) :
    (getPalindromeList mid sig).reverse = getPalindromeList mid sig := by
  cases mid with
  | false =>
    rw [getPalindromeList]
    simp
  | true =>
    rcases List.eq_nil_or_concat sig with hcase | ⟨ys, z, hyz⟩
    · subst hcase
      rfl
    · rw [List.concat_eq_append] at hyz
      subst hyz
      rw [getPalindromeList]
      simp only [if_true, List.reverse_append, List.reverse_cons, List.reverse_nil,
        List.nil_append, List.singleton_append, List.drop_succ_cons, List.drop_zero]
      simp [List.reverse_append]

/-- Every decimal palindrome is the mirror construction applied to its own
significant-digit prefix. -/
theorem palindrome_decomp (l : List Nat) (hrev : l.reverse = l) :
    l = getPalindromeList (l.length % 2 == 1) (l.take ((l.length + 1) / 2)) := by
  set L := l.length with hL
  set P := (L + 1) / 2 with hP
  have hPle : P ≤ L := by omega
  have hk : (if (L % 2 == 1) = true then 1 else 0) = 2 * P - L := by
    rcases Nat.even_or_odd L with he | ho
    · have : L % 2 = 0 := Nat.even_iff.mp he
      simp [this]
      omega
    · have : L % 2 = 1 := Nat.odd_iff.mp ho
      simp [this]
      omega
  rw [getPalindromeList]
  conv_lhs => rw [← List.take_append_drop P l]
  congr 1
  · -- drop of a palindrome is the mirrored take
    have h1 : l.drop P = (l.take (L - P)).reverse := by
      conv_lhs => rw [← hrev]
      rw [reverse_drop_eq, hL]
    have h2 : ((l.take P).reverse.drop (if (L % 2 == 1) = true then 1 else 0))
        = (l.take (L - P)).reverse := by
      rw [reverse_drop_eq, List.length_take, List.take_take]
      congr 2
      omega
    rw [h1]
    exact h2.symm

theorem headI_take {l : List Nat} {P : Nat} (hP : 1 ≤ P) :
    (l.take P).headI = l.headI := by
  cases l with
  | nil => simp
  | cons d t =>
    cases P with
    | zero => omega
    | succ P2 => simp

theorem headI_append {sig rest : List Nat} (hne : sig ≠ []) :
    (sig ++ rest).headI = sig.headI := by
  cases sig with
  | nil => exact absurd rfl hne
  | cons d t => simp

theorem fromDigits_ge_pow (l : List Nat) (hne : l ≠ []) (hh : l.headI ≠ 0) :
    10 ^ (l.length - 1) ≤ fromDigits l := by
  cases l with
  | nil => exact absurd rfl hne
  | cons d t =>
    simp only [List.headI] at hh
    have h1 := fromDigits_cons_ge d t
    have h4 : (d :: t).length - 1 = t.length := by simp
    rw [h4]
    calc 10 ^ t.length = 1 * 10 ^ t.length := by ring
    _ ≤ d * 10 ^ t.length := Nat.mul_le_mul_right _ (by omega)
    _ ≤ fromDigits (d :: t) := h1

/-- Round trip for either a canonical digit string or the string `"0"`. -/
theorem canonRoundtrip (l : List Nat) (hne : l ≠ []) (hd : ∀ d ∈ l, d < 10)
    (hcanon : l.headI ≠ 0 ∨ l = [0]) : digitsBE (fromDigits l) = l := by
  rcases hcanon with hh | hh
  · exact digitsBE_fromDigits l hne hd hh
  · subst hh
    have : fromDigits [0] = 0 := by simp [fromDigits, Nat.ofDigits]
    rw [this]
    rfl

/-- Properties of a mirror candidate built from a valid significant-digit
string of a length-`L` range. -/
theorem candidate_facts (L : Nat) (hL1 : 1 ≤ L) (sig : List Nat)
    (hlen : sig.length = (L + 1) / 2) (hdig : ∀ d ∈ sig, d < 10)
    (hcanon : sig.headI ≠ 0 ∨ (sig = [0] ∧ L = 1)) :
    digitsBE (fromDigits (getPalindromeList (L % 2 == 1) sig))
        = getPalindromeList (L % 2 == 1) sig ∧
    (digitsBE (fromDigits (getPalindromeList (L % 2 == 1) sig))).length = L ∧
    (digitsBE (fromDigits (getPalindromeList (L % 2 == 1) sig))).reverse
        = digitsBE (fromDigits (getPalindromeList (L % 2 == 1) sig)) ∧
    (digitsBE (fromDigits (getPalindromeList (L % 2 == 1) sig))).take ((L + 1) / 2)
        = sig := by
  have hsne : sig ≠ [] := by
    intro hbad
    rw [hbad] at hlen
    simp at hlen
    omega
  have hrt : digitsBE (fromDigits (getPalindromeList (L % 2 == 1) sig))
      = getPalindromeList (L % 2 == 1) sig := by
    apply canonRoundtrip
    · rw [getPalindromeList]
      intro hbad
      rw [List.append_eq_nil] at hbad
      exact hsne hbad.1
    · exact getPalindromeList_digits_lt _ _ hdig
    · rcases hcanon with hh | ⟨hh, hh2⟩
      · left
        rw [getPalindromeList, headI_append hsne]
        exact hh
      · right
        subst hh hh2
        rfl
  have hlen2 : (getPalindromeList (L % 2 == 1) sig).length = L := by
    rw [getPalindromeList_length, hlen]
    have hpar : L % 2 = 0 ∨ L % 2 = 1 := by omega
    rcases hpar with hp | hp
    · simp [hp]
      omega
    · simp [hp]
      omega
  refine ⟨hrt, by rw [hrt]; exact hlen2, ?_, ?_⟩
  · rw [hrt]
    exact getPalindromeList_reverse _ _
  · rw [hrt, ← hlen]
    exact getPalindromeList_take _ _

/-- Inversion for the interior candidate pass. -/
theorem palsOfRange_some (mid : Bool) : ∀ (ks out : List Nat),
    palsOfRange mid ks = some out →
    out = ks.map (fun k => fromDigits (getPalindromeList mid (digitsBE k))) := by
  intro ks
  induction ks with
  | nil =>
    intro out h
    rw [palsOfRange] at h
    simp only [Option.some_inj] at h
    rw [← h]
    rfl
  | cons k t ih =>
    intro out h
    rw [palsOfRange] at h
    cases hp : parse64 (getPalindromeList mid (digitsBE k)) with
    | none => rw [hp] at h; simp at h
    | some p =>
      rw [hp] at h
      cases ht : palsOfRange mid t with
      | none => rw [ht] at h; simp at h
      | some rest =>
        rw [ht] at h
        simp only [Option.map_some', Option.some_inj] at h
        have hpv : p = fromDigits (getPalindromeList mid (digitsBE k)) := by
          rw [parse64] at hp
          split at hp
          · exact (Option.some_inj.mp hp).symm
          · simp at hp
        rw [← h, List.map_cons, ← ih rest ht, hpv]

theorem parse64_some_eq {l : List Nat} {v : Nat} (h : parse64 l = some v) :
    v = fromDigits l := by
  rw [parse64] at h
  split at h
  · exact (Option.some_inj.mp h).symm
  · simp at h

theorem parse64_of_lt {l : List Nat} (h : fromDigits l < u64size) :
    parse64 l = some (fromDigits l) := by
  rw [parse64, if_pos h]

theorem val_lt_of_take_lt {x y P : Nat} (hlxy : (digitsBE x).length = (digitsBE y).length)
    (h : fromDigits ((digitsBE x).take P) < fromDigits ((digitsBE y).take P)) : x < y := by
  have h2 := fromDigits_lt_of_take hlxy (digitsBE_digits_lt x) P h
  rwa [fromDigits_digitsBE, fromDigits_digitsBE] at h2

theorem take_val_le_of_le {x y : Nat} (P : Nat)
    (hlxy : (digitsBE x).length = (digitsBE y).length) (h : x ≤ y) :
    fromDigits ((digitsBE x).take P) ≤ fromDigits ((digitsBE y).take P) := by
  apply take_le_of_fromDigits_le hlxy (digitsBE_digits_lt y) P
  rwa [fromDigits_digitsBE, fromDigits_digitsBE]

/-- The significant-digit slice of a length-`L` decimal string is a valid,
canonical sig string whose value prints back to it. -/
theorem sig_facts (n L : Nat) (hn : (digitsBE n).length = L) (hL1 : 1 ≤ L) :
    ((digitsBE n).take ((L + 1) / 2)).length = (L + 1) / 2 ∧
    (∀ d ∈ (digitsBE n).take ((L + 1) / 2), d < 10) ∧
    (((digitsBE n).take ((L + 1) / 2)).headI ≠ 0 ∨
      ((digitsBE n).take ((L + 1) / 2) = [0] ∧ L = 1)) ∧
    digitsBE (fromDigits ((digitsBE n).take ((L + 1) / 2)))
      = (digitsBE n).take ((L + 1) / 2) ∧
    fromDigits ((digitsBE n).take ((L + 1) / 2)) < 10 ^ ((L + 1) / 2) := by
  have hP1 : 1 ≤ (L + 1) / 2 := by omega
  have hlen : ((digitsBE n).take ((L + 1) / 2)).length = (L + 1) / 2 := by
    rw [List.length_take, hn]
    omega
  have hdig : ∀ d ∈ (digitsBE n).take ((L + 1) / 2), d < 10 :=
    fun d hd => digitsBE_digits_lt n d (List.take_subset _ _ hd)
  have hcanon : ((digitsBE n).take ((L + 1) / 2)).headI ≠ 0 ∨
      ((digitsBE n).take ((L + 1) / 2) = [0] ∧ L = 1) := by
    by_cases hn0 : n = 0
    · right
      subst hn0
      have hLeq : L = 1 := by rw [← hn]; rfl
      subst hLeq
      exact ⟨rfl, rfl⟩
    · left
      rw [headI_take hP1]
      exact digitsBE_headI_ne_zero n hn0
  have hne : (digitsBE n).take ((L + 1) / 2) ≠ [] := by
    intro hbad
    rw [hbad] at hlen
    simp at hlen
    omega
  refine ⟨hlen, hdig, hcanon, ?_, ?_⟩
  · apply canonRoundtrip _ hne hdig
    rcases hcanon with hh | hh
    · exact Or.inl hh
    · exact Or.inr hh.1
  · have hb := fromDigits_lt _ hdig
    rwa [hlen] at hb

/-- Lower bound of the sig value when the string has at least two digits. -/
theorem sig_ge_pow (n L : Nat) (hn : (digitsBE n).length = L) (hL2 : 2 ≤ L) :
    10 ^ ((L + 1) / 2 - 1) ≤ fromDigits ((digitsBE n).take ((L + 1) / 2)) := by
  have hn0 : n ≠ 0 := by
    intro hbad
    subst hbad
    rw [show (digitsBE 0).length = 1 from rfl] at hn
    omega
  obtain ⟨hlen, hdig, _, _, _⟩ := sig_facts n L hn (by omega)
  have hne : (digitsBE n).take ((L + 1) / 2) ≠ [] := by
    intro hbad
    rw [hbad] at hlen
    simp at hlen
    omega
  have hh : ((digitsBE n).take ((L + 1) / 2)).headI ≠ 0 := by
    rw [headI_take (by omega : 1 ≤ (L + 1) / 2)]
    exact digitsBE_headI_ne_zero n hn0
  have := fromDigits_ge_pow _ hne hh
  rwa [hlen] at this

/-- Facts about the mirror candidate of a canonical sig value `v`. -/
theorem cand_facts (L v : Nat) (hL1 : 1 ≤ L)
    (hlv : (digitsBE v).length = (L + 1) / 2)
    (hcanon : (digitsBE v).headI ≠ 0 ∨ (digitsBE v = [0] ∧ L = 1)) :
    (digitsBE (fromDigits (getPalindromeList (L % 2 == 1) (digitsBE v)))).length = L ∧
    (digitsBE (fromDigits (getPalindromeList (L % 2 == 1) (digitsBE v)))).reverse
      = digitsBE (fromDigits (getPalindromeList (L % 2 == 1) (digitsBE v))) ∧
    fromDigits ((digitsBE (fromDigits (getPalindromeList (L % 2 == 1)
      (digitsBE v)))).take ((L + 1) / 2)) = v := by
  obtain ⟨hrt, hlen, hrev, htake⟩ :=
    candidate_facts L hL1 (digitsBE v) hlv (digitsBE_digits_lt v) hcanon
  refine ⟨hlen, hrev, ?_⟩
  rw [htake, fromDigits_digitsBE]

theorem interior_candidate_canon (a L : Nat) (hL1 : 1 ≤ L)
    (hla : (digitsBE a).length = L) (k : Nat)
    (hkA : fromDigits ((digitsBE a).take ((L + 1) / 2)) < k)
    (hkB : k < 10 ^ ((L + 1) / 2)) :
    (digitsBE k).length = (L + 1) / 2 ∧ (digitsBE k).headI ≠ 0 := by
  have hk1 : 1 ≤ k := by omega
  have hlow : 10 ^ ((L + 1) / 2 - 1) ≤ k := by
    by_cases hL2 : 2 ≤ L
    · have := sig_ge_pow a L hla hL2
      omega
    · have hLeq : L = 1 := by omega
      subst hLeq
      simpa using hk1
  exact ⟨le_antisymm (digitsBE_length_le k _ (by omega) hkB)
    (le_digitsBE_length k _ hlow), digitsBE_headI_ne_zero k (by omega)⟩

/-- A decimal palindrome equals the mirror candidate of its own sig value. -/
theorem pal_x_eq_candidate (x L : Nat) (hL1 : 1 ≤ L) (hlx : (digitsBE x).length = L)
    (hrev : (digitsBE x).reverse = digitsBE x) :
    x = fromDigits (getPalindromeList (L % 2 == 1)
      (digitsBE (fromDigits ((digitsBE x).take ((L + 1) / 2))))) := by
  obtain ⟨_, _, _, hrt, _⟩ := sig_facts x L hlx hL1
  rw [hrt]
  have hd := palindrome_decomp (digitsBE x) hrev
  rw [hlx] at hd
  conv_lhs => rw [← fromDigits_digitsBE x, hd]

/-- Whenever the equal-length enumerator returns a list for the digit strings
of `a ≤ b` (both of decimal length `L`), that list is strictly ascending and
holds exactly the decimal palindromes of `[a, b]`. -/
theorem eqlen_spec (a b L : Nat) (hab : a ≤ b) (hL1 : 1 ≤ L)
    (hla : (digitsBE a).length = L) (hlb : (digitsBE b).length = L) (l : List Nat)
    (h : get_palindromes_from_equal_length_range (digitsBE a) (digitsBE b) = some l) :
    l.Pairwise (· < ·) ∧
      ∀ x, x ∈ l ↔ (a ≤ x ∧ x ≤ b ∧ (digitsBE x).reverse = digitsBE x) := by
  simp only [get_palindromes_from_equal_length_range] at h
  rw [hla] at h
  obtain ⟨sfa_len, sfa_dig, sfa_canon, sfa_rt, sfa_lt⟩ := sig_facts a L hla hL1
  obtain ⟨sfb_len, sfb_dig, sfb_canon, sfb_rt, sfb_lt⟩ := sig_facts b L hlb hL1
  split at h
  · exact Option.noConfusion h
  rename_i A hA
  split at h
  · exact Option.noConfusion h
  rename_i B hB
  split at h
  · exact Option.noConfusion h
  rename_i av hav
  split at h
  · exact Option.noConfusion h
  rename_i bv hbv
  split at h
  · exact Option.noConfusion h
  rename_i first hfirst
  split at h
  · exact Option.noConfusion h
  rename_i interior hint
  -- decode the parsed values
  have hAv := parse64_some_eq hA
  have hBv := parse64_some_eq hB
  have hfv := parse64_some_eq hfirst
  have havv : av = a := by rw [parse64_some_eq hav, fromDigits_digitsBE]
  have hbvv : bv = b := by rw [parse64_some_eq hbv, fromDigits_digitsBE]
  rw [havv, hbvv] at h
  have hintv := palsOfRange_some _ _ _ hint
  have hdA : digitsBE A = (digitsBE a).take ((L + 1) / 2) := by rw [hAv]; exact sfa_rt
  have hdB : digitsBE B = (digitsBE b).take ((L + 1) / 2) := by rw [hBv]; exact sfb_rt
  have hcfA := cand_facts L A hL1 (by rw [hdA]; exact sfa_len)
    (by rw [hdA]; exact sfa_canon)
  have hcfB := cand_facts L B hL1 (by rw [hdB]; exact sfb_len)
    (by rw [hdB]; exact sfb_canon)
  have hfirstA : first = fromDigits (getPalindromeList (L % 2 == 1) (digitsBE A)) := by
    rw [hfv, hdA]
  have htva : fromDigits ((digitsBE a).take ((L + 1) / 2)) = A := hAv.symm
  have htvb : fromDigits ((digitsBE b).take ((L + 1) / 2)) = B := hBv.symm
  have hABle : A ≤ B := by
    rw [hAv, hBv]
    exact take_val_le_of_le _ (by rw [hla, hlb]) hab
  have hcmp : ∀ x y : Nat, (digitsBE x).length = L → (digitsBE y).length = L →
      fromDigits ((digitsBE x).take ((L + 1) / 2))
        < fromDigits ((digitsBE y).take ((L + 1) / 2)) → x < y := by
    intro x y hx hy hlt
    exact val_lt_of_take_lt (by rw [hx, hy]) hlt
  have hlenfirst : (digitsBE first).length = L := by rw [hfirstA]; exact hcfA.1
  have hrevfirst : (digitsBE first).reverse = digitsBE first := by
    rw [hfirstA]; exact hcfA.2.1
  have htvfirst : fromDigits ((digitsBE first).take ((L + 1) / 2)) = A := by
    rw [hfirstA]; exact hcfA.2.2
  have hBlt : B < 10 ^ ((L + 1) / 2) := by rw [hBv]; exact sfb_lt
  have hIfacts : ∀ k, A < k → k < B →
      (digitsBE (fromDigits (getPalindromeList (L % 2 == 1) (digitsBE k)))).length = L ∧
      (digitsBE (fromDigits (getPalindromeList (L % 2 == 1) (digitsBE k)))).reverse
        = digitsBE (fromDigits (getPalindromeList (L % 2 == 1) (digitsBE k))) ∧
      fromDigits ((digitsBE (fromDigits (getPalindromeList (L % 2 == 1)
        (digitsBE k)))).take ((L + 1) / 2)) = k := by
    intro k hk1 hk2
    have hkA : fromDigits ((digitsBE a).take ((L + 1) / 2)) < k := by
      rw [htva]; exact hk1
    have hk10 : k < 10 ^ ((L + 1) / 2) := by omega
    have hkc := interior_candidate_canon a L hL1 hla k hkA hk10
    exact cand_facts L k hL1 hkc.1 (Or.inl hkc.2)
  have hImem : ∀ x, x ∈ interior ↔ ∃ k, A < k ∧ k < B ∧
      x = fromDigits (getPalindromeList (L % 2 == 1) (digitsBE k)) := by
    intro x
    rw [hintv]
    simp only [List.mem_map, List.mem_range'_1]
    constructor
    · rintro ⟨k, ⟨hk1, hk2⟩, hkx⟩
      exact ⟨k, by omega, by omega, hkx.symm⟩
    · rintro ⟨k, hk1, hk2, hkx⟩
      exact ⟨k, ⟨by omega, by omega⟩, hkx.symm⟩
  have hIsound : ∀ x ∈ interior, a < x ∧ x < b ∧
      (digitsBE x).reverse = digitsBE x := by
    intro x hx
    obtain ⟨k, hk1, hk2, rfl⟩ := (hImem x).mp hx
    obtain ⟨hlen, hrev, htv⟩ := hIfacts k hk1 hk2
    refine ⟨?_, ?_, hrev⟩
    · exact hcmp a _ hla hlen (by rw [htva, htv]; exact hk1)
    · exact hcmp _ b hlen hlb (by rw [htv, htvb]; exact hk2)
  have hcomplete : ∀ x, a ≤ x → x ≤ b → (digitsBE x).reverse = digitsBE x →
      (fromDigits ((digitsBE x).take ((L + 1) / 2)) = A ∧ x = first) ∨
      (A < fromDigits ((digitsBE x).take ((L + 1) / 2)) ∧
        fromDigits ((digitsBE x).take ((L + 1) / 2)) < B ∧ x ∈ interior) ∨
      (fromDigits ((digitsBE x).take ((L + 1) / 2)) = B ∧
        x = fromDigits (getPalindromeList (L % 2 == 1) (digitsBE B))) := by
    intro x hx1 hx2 hrev
    have hlx : (digitsBE x).length = L := by
      have h1 := digitsBE_length_mono hx1
      have h2 := digitsBE_length_mono hx2
      omega
    have hxcand := pal_x_eq_candidate x L hL1 hlx hrev
    have hkxA : A ≤ fromDigits ((digitsBE x).take ((L + 1) / 2)) := by
      rw [← htva]
      exact take_val_le_of_le _ (by rw [hla, hlx]) hx1
    have hkxB : fromDigits ((digitsBE x).take ((L + 1) / 2)) ≤ B := by
      rw [← htvb]
      exact take_val_le_of_le _ (by rw [hlx, hlb]) hx2
    rcases Nat.lt_or_ge A (fromDigits ((digitsBE x).take ((L + 1) / 2))) with hgt | hge
    · rcases Nat.lt_or_ge (fromDigits ((digitsBE x).take ((L + 1) / 2))) B with hlt | hge2
      · right; left
        refine ⟨hgt, hlt, ?_⟩
        rw [hImem]
        exact ⟨fromDigits ((digitsBE x).take ((L + 1) / 2)), hgt, hlt, hxcand⟩
      · right; right
        have hkb : fromDigits ((digitsBE x).take ((L + 1) / 2)) = B := by omega
        refine ⟨hkb, ?_⟩
        rw [← hkb]
        exact hxcand
    · left
      have hka : fromDigits ((digitsBE x).take ((L + 1) / 2)) = A := by omega
      refine ⟨hka, ?_⟩
      rw [hfirstA, ← hka]
      exact hxcand
  have hIsorted : interior.Pairwise (· < ·) := by
    rw [hintv, List.pairwise_map]
    have base : (List.range' (A + 1) (B - (A + 1))).Pairwise (· < ·) :=
      List.pairwise_lt_range' _ _ 1 (by omega)
    apply List.Pairwise.imp_of_mem ?_ base
    intro k1 k2 hm1 hm2 h12
    rw [List.mem_range'_1] at hm1 hm2
    obtain ⟨hl1, _, ht1⟩ := hIfacts k1 (by omega) (by omega)
    obtain ⟨hl2, _, ht2⟩ := hIfacts k2 (by omega) (by omega)
    exact hcmp _ _ hl1 hl2 (by rw [ht1, ht2]; exact h12)
  have hfirstI : ∀ x ∈ interior, first < x := by
    intro x hx
    obtain ⟨k, hk1, hk2, rfl⟩ := (hImem x).mp hx
    obtain ⟨hlen, _, htv⟩ := hIfacts k hk1 hk2
    exact hcmp _ _ hlenfirst hlen (by rw [htvfirst, htv]; exact hk1)
  -- the two branches of `start_sig_digits != end_sig_digits`
  split at h
  · -- distinct sig prefixes: first ++ interior ++ last
    rename_i hcond
    have hABlt : A < B := by
      rcases Nat.lt_or_ge A B with hx | hx
      · exact hx
      · exfalso
        have hABeq : A = B := by omega
        exact hcond (by rw [← hdA, ← hdB, hABeq])
    split at h
    · exact Option.noConfusion h
    rename_i lastv hlastp
    have hlv : lastv = fromDigits (getPalindromeList (L % 2 == 1) (digitsBE B)) := by
      rw [parse64_some_eq hlastp, hdB]
    have hlenlast : (digitsBE lastv).length = L := by rw [hlv]; exact hcfB.1
    have hrevlast : (digitsBE lastv).reverse = digitsBE lastv := by
      rw [hlv]; exact hcfB.2.1
    have htvlast : fromDigits ((digitsBE lastv).take ((L + 1) / 2)) = B := by
      rw [hlv]; exact hcfB.2.2
    have hfirstlast : first < lastv :=
      hcmp _ _ hlenfirst hlenlast (by rw [htvfirst, htvlast]; exact hABlt)
    have hIlast : ∀ x ∈ interior, x < lastv := by
      intro x hx
      obtain ⟨k, hk1, hk2, rfl⟩ := (hImem x).mp hx
      obtain ⟨hlen, _, htv⟩ := hIfacts k hk1 hk2
      exact hcmp _ _ hlen hlenlast (by rw [htv, htvlast]; exact hk2)
    obtain rfl := Option.some_inj.mp h.symm
    constructor
    · rw [List.pairwise_append]
      refine ⟨?_, ?_, ?_⟩
      · rw [List.pairwise_append]
        refine ⟨?_, hIsorted, ?_⟩
        · split
          · exact List.pairwise_singleton _ _
          · exact List.Pairwise.nil
        · intro x hx y hy
          split at hx
          · rw [List.mem_singleton] at hx
            subst hx
            exact hfirstI y hy
          · simp at hx
      · split
        · exact List.pairwise_singleton _ _
        · exact List.Pairwise.nil
      · intro x hx y hy
        split at hy
        · rw [List.mem_singleton] at hy
          subst hy
          rw [List.mem_append] at hx
          rcases hx with hx | hx
          · split at hx
            · rw [List.mem_singleton] at hx
              subst hx
              exact hfirstlast
            · simp at hx
          · exact hIlast x hx
        · simp at hy
    · intro x
      rw [List.mem_append, List.mem_append]
      constructor
      · rintro ((hx | hx) | hx)
        · split at hx
          · rename_i hcf
            rw [List.mem_singleton] at hx
            subst hx
            exact ⟨hcf.1, hcf.2, hrevfirst⟩
          · simp at hx
        · obtain ⟨h1, h2, h3⟩ := hIsound x hx
          exact ⟨by omega, by omega, h3⟩
        · split at hx
          · rename_i hcf
            rw [List.mem_singleton] at hx
            subst hx
            exact ⟨hcf.1, hcf.2, hrevlast⟩
          · simp at hx
      · rintro ⟨hx1, hx2, hx3⟩
        rcases hcomplete x hx1 hx2 hx3 with ⟨_, hxf⟩ | ⟨h1, h2, h3⟩ | ⟨_, hxl⟩
        · left; left
          subst hxf
          rw [if_pos ⟨hx1, hx2⟩]
          exact List.mem_singleton.mpr rfl
        · left; right
          exact h3
        · right
          rw [← hlv] at hxl
          subst hxl
          rw [if_pos ⟨hx1, hx2⟩]
          exact List.mem_singleton.mpr rfl
  · -- equal sig prefixes: first only (the interior is empty)
    rename_i hcond
    have hsigeq : (digitsBE a).take ((L + 1) / 2) = (digitsBE b).take ((L + 1) / 2) := by
      by_contra hc
      exact hcond hc
    have hABeq : A = B := by rw [hAv, hBv, hsigeq]
    have hIempty : interior = [] := by
      rw [hintv, hABeq]
      simp [show B - (B + 1) = 0 by omega]
    obtain rfl := Option.some_inj.mp h.symm
    constructor
    · rw [List.pairwise_append]
      refine ⟨?_, ?_, ?_⟩
      · split
        · exact List.pairwise_singleton _ _
        · exact List.Pairwise.nil
      · rw [hIempty]
        exact List.Pairwise.nil
      · intro x hx y hy
        rw [hIempty] at hy
        simp at hy
    · intro x
      rw [List.mem_append]
      constructor
      · rintro (hx | hx)
        · split at hx
          · rename_i hcf
            rw [List.mem_singleton] at hx
            subst hx
            exact ⟨hcf.1, hcf.2, hrevfirst⟩
          · simp at hx
        · rw [hIempty] at hx
          simp at hx
      · rintro ⟨hx1, hx2, hx3⟩
        rcases hcomplete x hx1 hx2 hx3 with ⟨_, hxf⟩ | ⟨h1, h2, _⟩ | ⟨_, hxl⟩
        · left
          subst hxf
          rw [if_pos ⟨hx1, hx2⟩]
          exact List.mem_singleton.mpr rfl
        · omega
        · left
          rw [← hABeq] at hxl
          rw [← hfirstA] at hxl
          subst hxl
          rw [if_pos ⟨hx1, hx2⟩]
          exact List.mem_singleton.mpr rfl

theorem getPalindromeList_length_exact (L : Nat) (sig : List Nat)
    (hlen : sig.length = (L + 1) / 2) (hL1 : 1 ≤ L) :
    (getPalindromeList (L % 2 == 1) sig).length = L := by
  rw [getPalindromeList_length, hlen]
  have hpar : L % 2 = 0 ∨ L % 2 = 1 := by omega
  rcases hpar with hp | hp
  · simp [hp]
    omega
  · simp [hp]
    omega

theorem palsOfRange_total (mid : Bool) : ∀ ks : List Nat,
    (∀ k ∈ ks, fromDigits (getPalindromeList mid (digitsBE k)) < u64size) →
    ∃ out, palsOfRange mid ks = some out := by
  intro ks
  induction ks with
  | nil => intro _; exact ⟨[], rfl⟩
  | cons k t ih =>
    intro hk
    obtain ⟨out, hout⟩ := ih (fun x hx => hk x (List.mem_cons_of_mem k hx))
    refine ⟨fromDigits (getPalindromeList mid (digitsBE k)) :: out, ?_⟩
    rw [palsOfRange, parse64_of_lt (hk k (List.mem_cons_self k t)), hout]
    rfl

/-- For ranges of digit length at most 19 every `parse::<u64>` inside the
equal-length enumerator succeeds, so it returns a list. -/
theorem eqlen_total (a b L : Nat) (hL1 : 1 ≤ L) (hL19 : L ≤ 19)
    (hla : (digitsBE a).length = L) (hlb : (digitsBE b).length = L) :
    ∃ l, get_palindromes_from_equal_length_range (digitsBE a) (digitsBE b) = some l := by
  obtain ⟨sfa_len, sfa_dig, sfa_canon, sfa_rt, sfa_lt⟩ := sig_facts a L hla hL1
  obtain ⟨sfb_len, sfb_dig, sfb_canon, sfb_rt, sfb_lt⟩ := sig_facts b L hlb hL1
  have hpowL : (10 : Nat) ^ L < u64size := by
    calc (10 : Nat) ^ L ≤ 10 ^ 19 := Nat.pow_le_pow_right (by norm_num) hL19
    _ < u64size := by norm_num [u64size]
  have hpowP : (10 : Nat) ^ ((L + 1) / 2) < u64size := by
    calc (10 : Nat) ^ ((L + 1) / 2) ≤ 10 ^ L :=
      Nat.pow_le_pow_right (by norm_num) (by omega)
    _ < u64size := hpowL
  have hpalbound : ∀ sig : List Nat, sig.length = (L + 1) / 2 → (∀ d ∈ sig, d < 10) →
      fromDigits (getPalindromeList (L % 2 == 1) sig) < u64size := by
    intro sig hsl hsd
    have hlenL := getPalindromeList_length_exact L sig hsl hL1
    have hb := fromDigits_lt (getPalindromeList (L % 2 == 1) sig)
      (getPalindromeList_digits_lt _ _ hsd)
    rw [hlenL] at hb
    omega
  rw [← Option.isSome_iff_exists]
  simp only [get_palindromes_from_equal_length_range]
  rw [hla]
  split
  · rename_i heq
    rw [parse64_of_lt (show fromDigits ((digitsBE a).take ((L + 1) / 2)) < u64size
      by omega)] at heq
    exact Option.noConfusion heq
  rename_i A hA
  split
  · rename_i heq
    rw [parse64_of_lt (show fromDigits ((digitsBE b).take ((L + 1) / 2)) < u64size
      by omega)] at heq
    exact Option.noConfusion heq
  rename_i B hB
  split
  · rename_i heq
    rw [parse64_of_lt (show fromDigits (digitsBE a) < u64size by
      rw [fromDigits_digitsBE]
      have := lt_pow_digitsBE_length a
      rw [hla] at this
      omega)] at heq
    exact Option.noConfusion heq
  rename_i av hav
  split
  · rename_i heq
    rw [parse64_of_lt (show fromDigits (digitsBE b) < u64size by
      rw [fromDigits_digitsBE]
      have := lt_pow_digitsBE_length b
      rw [hlb] at this
      omega)] at heq
    exact Option.noConfusion heq
  rename_i bv hbv
  split
  · rename_i heq
    rw [parse64_of_lt (hpalbound _ sfa_len sfa_dig)] at heq
    exact Option.noConfusion heq
  rename_i first hfirstp
  split
  · rename_i heq
    have hAv := parse64_some_eq hA
    have hbounds : ∀ k ∈ List.range' (A + 1) (B - (A + 1)),
        fromDigits (getPalindromeList (L % 2 == 1) (digitsBE k)) < u64size := by
      intro k hk
      rw [List.mem_range'_1] at hk
      have hkA : fromDigits ((digitsBE a).take ((L + 1) / 2)) < k := by
        rw [← hAv]
        omega
      have hkB : k < 10 ^ ((L + 1) / 2) := by
        have hBv := parse64_some_eq hB
        omega
      have hkc := interior_candidate_canon a L hL1 hla k hkA hkB
      exact hpalbound _ hkc.1 (digitsBE_digits_lt k)
    obtain ⟨out, hout⟩ := palsOfRange_total (L % 2 == 1) _ hbounds
    rw [hout] at heq
    exact Option.noConfusion heq
  rename_i interior hint
  split
  · split
    · rename_i heq
      rw [parse64_of_lt (hpalbound _ sfb_len sfb_dig)] at heq
      exact Option.noConfusion heq
    · rfl
  · rfl

theorem fromDigits_cons (d : Nat) (t : List Nat) :
    fromDigits (d :: t) = d * 10 ^ t.length + fromDigits t := by
  have h : (d :: t) = [d] ++ t := rfl
  rw [h, fromDigits_append, fromDigits_single]

theorem fromDigits_replicate_zero (m : Nat) : fromDigits (List.replicate m 0) = 0 := by
  induction m with
  | zero => rfl
  | succ m ih =>
    rw [List.replicate_succ, fromDigits_cons, ih]
    omega

theorem fromDigits_replicate_nine (L : Nat) :
    fromDigits (List.replicate L 9) = 10 ^ L - 1 := by
  induction L with
  | zero => rfl
  | succ L ih =>
    rw [List.replicate_succ, fromDigits_cons, ih, List.length_replicate]
    have : (10 : Nat) ^ L ≥ 1 := Nat.one_le_pow _ _ (by norm_num)
    rw [pow_succ]
    omega

/-- `"9".repeat(L)` is the decimal string of `10^L - 1`. -/
theorem digitsBE_repnine (L : Nat) (hL : 1 ≤ L) :
    digitsBE (10 ^ L - 1) = List.replicate L 9 := by
  rw [← fromDigits_replicate_nine]
  apply canonRoundtrip
  · intro hbad
    have := congrArg List.length hbad
    simp at this
    omega
  · intro d hd
    rw [List.eq_of_mem_replicate hd]
    norm_num
  · left
    cases hL2 : L with
    | zero => omega
    | succ m => simp [List.replicate_succ]

/-- `"1" + "0".repeat(m)` is the decimal string of `10^m`. -/
theorem digitsBE_onezeros (m : Nat) :
    digitsBE (10 ^ m) = 1 :: List.replicate m 0 := by
  have hv : fromDigits (1 :: List.replicate m 0) = 10 ^ m := by
    rw [fromDigits_cons, fromDigits_replicate_zero, List.length_replicate]
    omega
  rw [← hv]
  apply canonRoundtrip
  · simp
  · intro d hd
    rcases List.mem_cons.mp hd with h | h
    · omega
    · rw [List.eq_of_mem_replicate h]
      norm_num
  · left
    simp

/-- `is_palindrome` agrees with reversal equality of the decimal string
(the first/last-character shortcut never changes the answer). -/
theorem is_palindrome_iff (n : Nat) :
    is_palindrome n = true ↔ (digitsBE n).reverse = digitsBE n := by
  rw [is_palindrome]
  constructor
  · intro h
    split at h
    · exact absurd h (by simp)
    · exact (beq_iff_eq.mp h).symm
  · intro h
    have h1 : (digitsBE n).head? = (digitsBE n).getLast? := by
      conv_lhs => rw [← h]
      exact List.head?_reverse _
    split
    · rename_i hcond
      rw [bne_iff_ne] at hcond
      exact absurd h1 hcond
    · exact beq_iff_eq.mpr h.symm

theorem palRangesLoop_append (xs ys : List (List Nat × List Nat)) :
    palRangesLoop (xs ++ ys)
      = (palRangesLoop xs).bind (fun lx => (palRangesLoop ys).map (lx ++ ·)) := by
  induction xs with
  | nil =>
    rw [List.nil_append]
    cases hy : palRangesLoop ys with
    | none => rfl
    | some ly => simp [palRangesLoop]
  | cons r xs ih =>
    rw [List.cons_append, palRangesLoop, palRangesLoop]
    cases hr : get_palindromes_from_equal_length_range r.1 r.2 with
    | none => rfl
    | some ps =>
      rw [ih]
      cases hx : palRangesLoop xs with
      | none => rfl
      | some lx =>
        cases hy : palRangesLoop ys with
        | none => rfl
        | some ly => simp [List.append_assoc]

theorem palRangesLoop_singleton (a b : List Nat) :
    palRangesLoop [(a, b)] = get_palindromes_from_equal_length_range a b := by
  rw [palRangesLoop]
  cases h : get_palindromes_from_equal_length_range a b with
  | none => rfl
  | some ps => simp [palRangesLoop]

/-- The middle full-length pieces of `get_palindromes_from_sat_range`
(string range `["10…0", "9…9"]` for each digit length `i0, …, i0+cnt-1`)
enumerate exactly the palindromes in `[10^(i0-1), 10^(i0-1+cnt) - 1]`,
in strictly ascending order. -/
theorem palRangesLoop_middles_spec (cnt : Nat) : ∀ i0 : Nat, 2 ≤ i0 →
    ∀ lm, palRangesLoop ((List.range' i0 cnt).map
        (fun i => (1 :: List.replicate (i - 1) 0, List.replicate i 9))) = some lm →
      lm.Pairwise (· < ·) ∧
        ∀ x, x ∈ lm ↔ (10 ^ (i0 - 1) ≤ x ∧ x ≤ 10 ^ (i0 - 1 + cnt) - 1 ∧
          (digitsBE x).reverse = digitsBE x) := by
  induction cnt with
  | zero =>
    intro i0 hi0 lm h
    rw [show List.range' i0 0 = [] from rfl, List.map_nil, palRangesLoop] at h
    have hlm : lm = [] := (Option.some_inj.mp h).symm
    subst hlm
    refine ⟨List.Pairwise.nil, fun x => ?_⟩
    simp only [List.not_mem_nil, false_iff]
    rintro ⟨hx1, hx2, -⟩
    rw [Nat.add_zero] at hx2
    have hp : 1 ≤ 10 ^ (i0 - 1) := Nat.one_le_pow _ _ (by norm_num)
    omega
  | succ cnt ih =>
    intro i0 hi0 lm h
    rw [List.range'_succ, List.map_cons] at h
    simp only [palRangesLoop] at h
    split at h
    · exact Option.noConfusion h
    · rename_i ps heq
      rw [Option.map_eq_some'] at h
      obtain ⟨lrest, hrest, rfl⟩ := h
      have e1 : (1 :: List.replicate (i0 - 1) 0) = digitsBE (10 ^ (i0 - 1)) :=
        (digitsBE_onezeros _).symm
      have e2 : List.replicate i0 9 = digitsBE (10 ^ i0 - 1) :=
        (digitsBE_repnine i0 (by omega)).symm
      rw [e1, e2] at heq
      have hpowlt : (10:Nat) ^ (i0 - 1) < 10 ^ i0 :=
        Nat.pow_lt_pow_right (by norm_num) (by omega)
      have spec1 := eqlen_spec (10 ^ (i0 - 1)) (10 ^ i0 - 1) i0 (by omega) (by omega)
        (by rw [digitsBE_onezeros]
            simp only [List.length_cons, List.length_replicate]
            omega)
        (by rw [digitsBE_repnine i0 (by omega)]
            simp only [List.length_replicate])
        ps heq
      have spec2 := ih (i0 + 1) (by omega) lrest hrest
      rw [Nat.add_sub_cancel] at spec2
      have he : i0 - 1 + (cnt + 1) = i0 + cnt := by omega
      rw [he]
      obtain ⟨s1, m1⟩ := spec1
      obtain ⟨s2, m2⟩ := spec2
      have hle2 : (10:Nat) ^ i0 ≤ 10 ^ (i0 + cnt) :=
        Nat.pow_le_pow_right (by norm_num) (by omega)
      have h1p : 1 ≤ (10:Nat) ^ i0 := Nat.one_le_pow _ _ (by norm_num)
      constructor
    
      · rw [List.pairwise_append]
        refine ⟨s1, s2, fun x hx y hy => ?_⟩
        obtain ⟨a1, a2, -⟩ := (m1 x).mp hx
        obtain ⟨b1, b2, -⟩ := (m2 y).mp hy
        omega
      · intro x
        rw [List.mem_append]
        constructor
        · rintro (hx | hx)
          · obtain ⟨a1, a2, a3⟩ := (m1 x).mp hx
            exact ⟨a1, by omega, a3⟩
          · obtain ⟨a1, a2, a3⟩ := (m2 x).mp hx
            exact ⟨by omega, by omega, a3⟩
        · rintro ⟨b1, b2, b3⟩
          by_cases hc : x < 10 ^ i0
          · exact Or.inl ((m1 x).mpr ⟨b1, by omega, b3⟩)
          · exact Or.inr ((m2 x).mpr ⟨by omega, by omega, b3⟩)

/-- `get_palindromes_from_sat_range s e` (whenever it returns a list rather
than panicking) is a strictly ascending enumeration of exactly the palindromic
integers in the inclusive range `[s, e]`. -/
theorem palindromes_spec (s e : Nat) (hse : s ≤ e) (l : List Nat)
    (h : get_palindromes_from_sat_range s e = some l) :
    l.Pairwise (· < ·) ∧
      ∀ x, x ∈ l ↔ (s ≤ x ∧ x ≤ e ∧ (digitsBE x).reverse = digitsBE x) := by
  simp only [get_palindromes_from_sat_range] at h
  by_cases hlen : (digitsBE s).length = (digitsBE e).length
  · rw [if_pos hlen, palRangesLoop_singleton] at h
    exact eqlen_spec s e (digitsBE s).length hse (digitsBE_length_pos s) rfl hlen.symm l h
  · rw [if_neg hlen, palRangesLoop_append, palRangesLoop_append,
      palRangesLoop_singleton, palRangesLoop_singleton] at h
    have hLs1 : 1 ≤ (digitsBE s).length := digitsBE_length_pos s
    have hmono := digitsBE_length_mono hse
    have hLsLe : (digitsBE s).length < (digitsBE e).length := lt_of_le_of_ne hmono hlen
    have he0 : e ≠ 0 := by
      intro h0
      subst h0
      have h1 : s = 0 := Nat.le_zero.mp hse
      subst h1
      exact hlen rfl
    rw [Option.bind_eq_some] at h
    obtain ⟨lab, hab, h⟩ := h
    rw [Option.bind_eq_some] at hab
    obtain ⟨la, hA, hmap⟩ := hab
    rw [Option.map_eq_some'] at hmap
    obtain ⟨lb, hB, rfl⟩ := hmap
    rw [Option.map_eq_some'] at h
    obtain ⟨lc, hC, rfl⟩ := h
    have hsl : s < 10 ^ (digitsBE s).length := lt_pow_digitsBE_length s
    have hel : 10 ^ ((digitsBE e).length - 1) ≤ e := pow_le_of_digitsBE e he0
    rw [show List.replicate (digitsBE s).length 9
        = digitsBE (10 ^ (digitsBE s).length - 1) from
      (digitsBE_repnine _ hLs1).symm] at hA
    have spec1 := eqlen_spec s (10 ^ (digitsBE s).length - 1) (digitsBE s).length
      (by omega) hLs1 rfl
      (by rw [digitsBE_repnine _ hLs1]
          simp only [List.length_replicate])
      la hA
    have spec2 := palRangesLoop_middles_spec
      ((digitsBE e).length - ((digitsBE s).length + 1)) ((digitsBE s).length + 1)
      (by omega) lb hB
    rw [Nat.add_sub_cancel] at spec2
    have hexp : (digitsBE s).length
        + ((digitsBE e).length - ((digitsBE s).length + 1))
        = (digitsBE e).length - 1 := by omega
    rw [hexp] at spec2
    rw [show (1 :: List.replicate ((digitsBE e).length - 1) 0)
        = digitsBE (10 ^ ((digitsBE e).length - 1)) from
      (digitsBE_onezeros _).symm] at hC
    have spec3 := eqlen_spec (10 ^ ((digitsBE e).length - 1)) e (digitsBE e).length
      hel (by omega)
      (by rw [digitsBE_onezeros]
          simp only [List.length_cons, List.length_replicate]
          omega)
      rfl lc hC
    have hp1 : (10:Nat) ^ (digitsBE s).length ≤ 10 ^ ((digitsBE e).length - 1) :=
      Nat.pow_le_pow_right (by norm_num) (by omega)
    have hp2 : 1 ≤ (10:Nat) ^ (digitsBE s).length := Nat.one_le_pow _ _ (by norm_num)
    obtain ⟨s1, m1⟩ := spec1
    obtain ⟨s2, m2⟩ := spec2
    obtain ⟨s3, m3⟩ := spec3
    constructor
    · rw [List.pairwise_append, List.pairwise_append]
      refine ⟨⟨s1, s2, fun x hx y hy => ?_⟩, s3, fun x hx y hy => ?_⟩
      · obtain ⟨a1, a2, -⟩ := (m1 x).mp hx
        obtain ⟨b1, b2, -⟩ := (m2 y).mp hy
        omega
      · obtain ⟨c1, c2, -⟩ := (m3 y).mp hy
        rcases List.mem_append.mp hx with hx | hx
        · obtain ⟨a1, a2, -⟩ := (m1 x).mp hx
          omega
        · obtain ⟨b1, b2, -⟩ := (m2 x).mp hx
          omega
    · intro x
      rw [List.mem_append, List.mem_append]
      constructor
      · rintro ((hx | hx) | hx)
        · obtain ⟨a1, a2, a3⟩ := (m1 x).mp hx
          exact ⟨a1, by omega, a3⟩
        · obtain ⟨a1, a2, a3⟩ := (m2 x).mp hx
          exact ⟨by omega, by omega, a3⟩
        · obtain ⟨a1, a2, a3⟩ := (m3 x).mp hx
          exact ⟨by omega, a2, a3⟩
      · rintro ⟨b1, b2, b3⟩
        by_cases hc1 : x < 10 ^ (digitsBE s).length
        · exact Or.inl (Or.inl ((m1 x).mpr ⟨b1, by omega, b3⟩))
        · by_cases hc2 : x < 10 ^ ((digitsBE e).length - 1)
          · exact Or.inl (Or.inr ((m2 x).mpr ⟨by omega, by omega, b3⟩))
          · exact Or.inr ((m3 x).mpr ⟨by omega, b2, b3⟩)

theorem palRangesLoop_middles_total (cnt : Nat) : ∀ i0 : Nat, 2 ≤ i0 →
    i0 + cnt ≤ 20 →
    ∃ lm, palRangesLoop ((List.range' i0 cnt).map
      (fun i => (1 :: List.replicate (i - 1) 0, List.replicate i 9))) = some lm := by
  induction cnt with
  | zero =>
    intro i0 _ _
    exact ⟨[], rfl⟩
  | succ cnt ih =>
    intro i0 hi0 hle
    obtain ⟨ps, hps⟩ := eqlen_total (10 ^ (i0 - 1)) (10 ^ i0 - 1) i0 (by omega) (by omega)
      (by rw [digitsBE_onezeros]
          simp only [List.length_cons, List.length_replicate]
          omega)
      (by rw [digitsBE_repnine i0 (by omega)]
          simp only [List.length_replicate])
    obtain ⟨lm, hlm⟩ := ih (i0 + 1) (by omega) (by omega)
    refine ⟨ps ++ lm, ?_⟩
    rw [List.range'_succ, List.map_cons]
    simp only [palRangesLoop]
    rw [show (1 :: List.replicate (i0 - 1) 0) = digitsBE (10 ^ (i0 - 1)) from
        (digitsBE_onezeros _).symm,
      show List.replicate i0 9 = digitsBE (10 ^ i0 - 1) from
        (digitsBE_repnine i0 (by omega)).symm,
      hps, hlm]
    rfl

/-- `get_palindromes_from_sat_range` returns (no `u64` parse overflow) on
every range `[s, e]` with `s ≤ e < 10^19`. -/
theorem palindromes_total (s e : Nat) (hse : s ≤ e) (he : e < 10 ^ 19) :
    ∃ l, get_palindromes_from_sat_range s e = some l := by
  have hLe19 : (digitsBE e).length ≤ 19 := digitsBE_length_le e 19 (by norm_num) he
  have hLs1 : 1 ≤ (digitsBE s).length := digitsBE_length_pos s
  have hmono := digitsBE_length_mono hse
  simp only [get_palindromes_from_sat_range]
  by_cases hlen : (digitsBE s).length = (digitsBE e).length
  · rw [if_pos hlen, palRangesLoop_singleton]
    exact eqlen_total s e (digitsBE s).length hLs1 (by omega) rfl hlen.symm
  · rw [if_neg hlen, palRangesLoop_append, palRangesLoop_append,
      palRangesLoop_singleton, palRangesLoop_singleton]
    have hLsLe : (digitsBE s).length < (digitsBE e).length := lt_of_le_of_ne hmono hlen
    obtain ⟨la, hA⟩ := eqlen_total s (10 ^ (digitsBE s).length - 1) (digitsBE s).length
      hLs1 (by omega) rfl
      (by rw [digitsBE_repnine _ hLs1]
          simp only [List.length_replicate])
    obtain ⟨lb, hB⟩ := palRangesLoop_middles_total
      ((digitsBE e).length - ((digitsBE s).length + 1)) ((digitsBE s).length + 1)
      (by omega) (by omega)
    obtain ⟨lc, hC⟩ := eqlen_total (10 ^ ((digitsBE e).length - 1)) e
      (digitsBE e).length (by omega) hLe19
      (by rw [digitsBE_onezeros]
          simp only [List.length_cons, List.length_replicate]
          omega)
      rfl
    refine ⟨(la ++ lb) ++ lc, ?_⟩
    rw [show List.replicate (digitsBE s).length 9
        = digitsBE (10 ^ (digitsBE s).length - 1) from
      (digitsBE_repnine _ hLs1).symm,
      show (1 :: List.replicate ((digitsBE e).length - 1) 0)
        = digitsBE (10 ^ ((digitsBE e).length - 1)) from
      (digitsBE_onezeros _).symm,
      hA, hB, hC]
    rfl

/-- **C1**: for every range `[s, e)` with `e - s ≤ 10^4` and `s < 10^7`, the
closed-form palindrome enumerator applied to the inclusive interval
`[s, e-1]` (`get_palindromes_from_sat_range(s, e-1)`) returns exactly the
list obtained by brute-force filtering every integer of `[s, e-1]` with the
palindrome predicate `is_palindrome`, and that predicate holds for `n` iff
the decimal string of `n` equals its own reversal. -/
theorem c1_palindrome_refinement (s e : Nat) (h1 : s < e) (h2 : e - s ≤ 10 ^ 4)
    (h3 : s < 10 ^ 7) :
    get_palindromes_from_sat_range s (e - 1)
      = some ((List.range' s (e - s)).filter is_palindrome)
    ∧ ∀ n : Nat, is_palindrome n = true ↔ (digitsBE n).reverse = digitsBE n := by
  have hbound : e - 1 < 10 ^ 19 := by
    have e4 : (10:Nat) ^ 4 = 10000 := by norm_num
    have e7 : (10:Nat) ^ 7 = 10000000 := by norm_num
    have e19 : (10:Nat) ^ 19 = 10000000000000000000 := by norm_num
    omega
  obtain ⟨l, hl⟩ := palindromes_total s (e - 1) (by omega) hbound
  obtain ⟨hsort, hmem⟩ := palindromes_spec s (e - 1) (by omega) l hl
  have hbrute_sorted : ((List.range' s (e - s)).filter is_palindrome).Pairwise (· < ·) :=
    List.Pairwise.filter _ (List.pairwise_lt_range' s (e - s))
  have hmem2 : ∀ x, x ∈ (List.range' s (e - s)).filter is_palindrome
      ↔ (s ≤ x ∧ x ≤ e - 1 ∧ (digitsBE x).reverse = digitsBE x) := by
    intro x
    rw [List.mem_filter, List.mem_range'_1, is_palindrome_iff]
    constructor
    · rintro ⟨⟨a1, a2⟩, a3⟩
      exact ⟨a1, by omega, a3⟩
    · rintro ⟨b1, b2, b3⟩
      exact ⟨⟨b1, by omega⟩, b3⟩
  refine ⟨?_, is_palindrome_iff⟩
  rw [hl]
  exact congrArg some (sorted_eq_of_mem_iff hsort hbrute_sorted
    (fun x => (hmem x).trans ((hmem2 x).symm)))

theorem c1_palindrome_refinement_witness :
    5 < 12 ∧
      (get_palindromes_from_sat_range 5 (12 - 1)
          = some ((List.range' 5 (12 - 5)).filter is_palindrome)
        ∧ ∀ n : Nat, is_palindrome n = true ↔ (digitsBE n).reverse = digitsBE n) :=
  ⟨by decide, c1_palindrome_refinement 5 12 (by decide) (by decide) (by decide)⟩

/-- **C6**: for every valid inclusive range `[lo, hi]` with `lo ≤ hi`, the
output list of the palindrome enumerator `get_palindromes_from_sat_range`
is strictly ascending and contains no duplicates. -/
theorem c6_palindromes_sorted_nodup (lo hi : Nat) (h : lo ≤ hi) (l : List Nat)
    (hl : get_palindromes_from_sat_range lo hi = some l) :
    l.Pairwise (· < ·) ∧ l.Nodup := by
  obtain ⟨hs, -⟩ := palindromes_spec lo hi h l hl
  exact ⟨hs, hs.imp (fun hlt => Nat.ne_of_lt hlt)⟩

theorem c6_palindromes_sorted_nodup_witness :
    (0:Nat) ≤ 0 ∧ get_palindromes_from_sat_range 0 0 = some [0] ∧
      ([0] : List Nat).Pairwise (· < ·) ∧ ([0] : List Nat).Nodup :=
  ⟨by decide, by decide, c6_palindromes_sorted_nodup 0 0 (by decide) [0] (by decide)⟩

/-! ### The RPC dispatcher `get_block_rarities` (rpc.rs) -/

/-- The full `BlockRarity` enum that `rpc.rs` dispatches over (the version of
`block_rarity.rs` in the tree predates it and carries only seven variants,
kept above as `BlockRarity` for the serialization claims). -/
inductive BlockRarityRpc where
  | Vintage
  | Nakamoto
  | Block9
  | Block9_450
  | Block78
  | Block286
  | FirstTransaction
  | Pizza
  | Palindrome
  | Alpha
  | Omega
  | PerfectPalinception
  | UniformPalinception
  | JPEG
  | Legacy
  | Hitman
  | Block666
  | Taproot
  | PaliblockPalindrome
deriving DecidableEq, Repr

/-- `pub const VINTAGE_BLOCK_HEIGHT: u32 = 1000` from `block_rarity.rs`. -/
def VINTAGE_BLOCK_HEIGHT : Nat := 1000

/-- `pub const BLOCK9_BLOCK_HEIGHT: u32 = 9` from `block_rarity.rs`. -/
def BLOCK9_BLOCK_HEIGHT : Nat := 9

/-- `pub const BLOCK78_BLOCK_HEIGHT: u32 = 78` from `block_rarity.rs`. -/
def BLOCK78_BLOCK_HEIGHT : Nat := 78

/-- `pub const NAKAMOTO_BLOCK_HEIGHTS` from `block_rarity.rs`. -/
def NAKAMOTO_BLOCK_HEIGHTS : List Nat :=
  [9, 286, 688, 877, 1760, 2459, 2485, 3479, 5326, 9443, 9925, 10645, 14450,
   15625, 15817, 19093, 23014, 28593, 29097]

/-- `pub const FIRST_TRANSACTION_SAT_RANGE` from `block_rarity.rs`. -/
def FIRST_TRANSACTION_SAT_RANGE : Nat × Nat := (45000000000, 46000000000)

/-- Modelled from the spec: the externals `rpc.rs` imports that are absent
from the tree (the `Sat::height` resolver, which the spec treats as a
collaborator deriving a block height from a sat index, the extended
constants/tables `BLOCK286_BLOCK_HEIGHT`, `BLOCK666_BLOCK_HEIGHT`,
`TAPROOT_BLOCK_HEIGHT`, `BLOCK9_450_SAT_RANGE`, `JPEG_BLOCK_HEIGHTS`,
`LEGACY_RANGE_MAP`, `HITMAN_RANGE_MAP`, and the refinement predicates
`is_perfect_palindrome` / `is_uniform_palindrome` on decimal strings). The
dispatcher is parametric in them, so every theorem below holds for all
values of these externals. -/
structure RpcEnv where
  sat_height : Nat → Nat
  BLOCK286_BLOCK_HEIGHT : Nat
  BLOCK666_BLOCK_HEIGHT : Nat
  TAPROOT_BLOCK_HEIGHT : Nat
  BLOCK9_450_SAT_RANGE : Nat × Nat
  JPEG_BLOCK_HEIGHTS : List Nat
  LEGACY_RANGE_MAP : Nat → List (Nat × Nat)
  HITMAN_RANGE_MAP : Nat → List (Nat × Nat)
  is_perfect_palindrome : List Nat → Bool
  is_uniform_palindrome : List Nat → Bool

/-- The single `for palindrome in get_palindromes_from_sat_range(..)` loop of
the `Palindrome` arm: one pass pushing into the four chunk vectors
(normal, perfect, uniform, paliblock). -/
def palindromeChunksLoop (env : RpcEnv) (block_height : Nat) :
    List Nat →
      List (Nat × Nat) × List (Nat × Nat) × List (Nat × Nat) × List (Nat × Nat)
  | [] => ([], [], [], [])
  | p :: ps =>
    let rest := palindromeChunksLoop env block_height ps
    ((p, p + 1) :: rest.1,
     if env.is_perfect_palindrome (digitsBE p)
       then (p, p + 1) :: rest.2.1 else rest.2.1,
     if env.is_uniform_palindrome (digitsBE p)
       then (p, p + 1) :: rest.2.2.1 else rest.2.2.1,
     if is_palindrome block_height
       then (p, p + 1) :: rest.2.2.2 else rest.2.2.2)

/-- `get_block_rarity_chunks` from `rpc.rs`: the per-kind evaluator. `none`
models a panic inside the arm (palindrome parse overflow, alpha/omega
under/overflow); every other arm is total. -/
def get_block_rarity_chunks (env : RpcEnv) (block_rarity : BlockRarityRpc)
    (start e : Nat) : Option (List (BlockRarityRpc × List (Nat × Nat))) :=
  let block_height := env.sat_height start
  match block_rarity with
  | .Vintage =>
    some (if block_height ≤ VINTAGE_BLOCK_HEIGHT
      then [(.Vintage, [(start, e)])] else [])
  | .Nakamoto =>
    some (if block_height ∈ NAKAMOTO_BLOCK_HEIGHTS
      then [(.Nakamoto, [(start, e)])] else [])
  | .Block9 =>
    some (if block_height = BLOCK9_BLOCK_HEIGHT
      then (.Block9, [(start, e)]) ::
        (if start < env.BLOCK9_450_SAT_RANGE.2
          then [(.Block9_450, [(start, min env.BLOCK9_450_SAT_RANGE.2 e)])]
          else [])
      else [])
  | .Block78 =>
    some (if block_height = BLOCK78_BLOCK_HEIGHT
      then [(.Block78, [(start, e)])] else [])
  | .Block286 =>
    some (if block_height = env.BLOCK286_BLOCK_HEIGHT
      then [(.Block286, [(start, e)])] else [])
  | .FirstTransaction =>
    some (if block_height = BLOCK9_BLOCK_HEIGHT ∧
        start < FIRST_TRANSACTION_SAT_RANGE.2
      then [(.FirstTransaction,
        [(start, min FIRST_TRANSACTION_SAT_RANGE.2 e)])]
      else [])
  | .Pizza =>
    some [(.Pizza, sat_range_chunks (PIZZA_RANGE_MAP block_height) start e)]
  | .Palindrome =>
    match get_palindromes_from_sat_range start (e - 1) with
    | none => none
    | some pals =>
      let c := palindromeChunksLoop env block_height pals
      some [(.Palindrome, c.1), (.PerfectPalinception, c.2.1),
            (.UniformPalinception, c.2.2.1), (.PaliblockPalindrome, c.2.2.2)]
  | .Alpha =>
    (get_alpha_from_sat_range start e).map
      (fun l => [(.Alpha, l.map (fun a => (a, a + 1)))])
  | .Omega =>
    (get_omega_from_sat_range start e).map
      (fun l => [(.Omega, l.map (fun o => (o, o + 1)))])
  | .JPEG =>
    some (if block_height ∈ env.JPEG_BLOCK_HEIGHTS
      then [(.JPEG, [(start, e)])] else [])
  | .Legacy =>
    some [(.Legacy, sat_range_chunks (env.LEGACY_RANGE_MAP block_height) start e)]
  | .Hitman =>
    some [(.Hitman, sat_range_chunks (env.HITMAN_RANGE_MAP block_height) start e)]
  | .Block666 =>
    some (if block_height = env.BLOCK666_BLOCK_HEIGHT
      then [(.Block666, [(start, e)])] else [])
  | .Taproot =>
    some (if block_height = env.TAPROOT_BLOCK_HEIGHT
      then [(.Taproot, [(start, e)])] else [])
  | _ => some []

/-- The kind list iterated by `get_block_rarities` (Taproot is commented out
in the source). -/
def RARITY_KINDS : List BlockRarityRpc :=
  [.Vintage, .Nakamoto, .Block9, .Block78, .FirstTransaction, .Pizza,
   .Palindrome, .Alpha, .Omega, .PerfectPalinception, .UniformPalinception,
   .Block286, .JPEG, .Legacy, .Hitman, .Block666, .PaliblockPalindrome]

/-- The main loop of `get_block_rarities`: per kind, evaluate the chunks and
keep the tagged outputs with nonempty chunk lists, in order. -/
def rarities_loop (env : RpcEnv) (start e : Nat) :
    List BlockRarityRpc → Option (List (BlockRarityRpc × List (Nat × Nat)))
  | [] => some []
  | k :: ks =>
    match get_block_rarity_chunks env k start e with
    | none => none
    | some rs =>
      (rarities_loop env start e ks).map
        (fun rest => rs.filter (fun rc => !rc.2.isEmpty) ++ rest)

/-- `get_block_rarities` from `rpc.rs`: validates the query range, then
aggregates the per-kind reports. Outer `none` models a panic inside an
evaluator arm; the error messages are modelled as fixed strings. -/
def get_block_rarities (env : RpcEnv) (start e : Nat) :
    Option (Except String (List (BlockRarityRpc × List (Nat × Nat)))) :=
  if start ≥ e then
    some (.error "invalid sat range: start >= end")
  else if env.sat_height start ≠ env.sat_height (e - 1) then
    some (.error "invalid sat range: start and end are in different blocks")
  else
    (rarities_loop env start e RARITY_KINDS).map .ok

theorem palindromeChunksLoop_eq (env : RpcEnv) (bh : Nat) (ps : List Nat) :
    palindromeChunksLoop env bh ps
      = (ps.map (fun p => (p, p + 1)),
         (ps.filter (fun p => env.is_perfect_palindrome (digitsBE p))).map
           (fun p => (p, p + 1)),
         (ps.filter (fun p => env.is_uniform_palindrome (digitsBE p))).map
           (fun p => (p, p + 1)),
         if is_palindrome bh then ps.map (fun p => (p, p + 1)) else []) := by
  induction ps with
  | nil =>
    simp [palindromeChunksLoop]
  | cons p ps ih =>
    simp only [palindromeChunksLoop, ih, List.map_cons, List.filter_cons,
      Prod.mk.injEq]
    refine ⟨trivial, ?_, ?_, ?_⟩
    · by_cases h : env.is_perfect_palindrome (digitsBE p) <;> simp [h]
    · by_cases h : env.is_uniform_palindrome (digitsBE p) <;> simp [h]
    · by_cases h : is_palindrome bh <;> simp [h]

theorem digitsBE_one : digitsBE 1 = [1] := by
  rw [show (1:Nat) = fromDigits [1] from by rw [fromDigits_single]]
  exact canonRoundtrip [1] (by simp) (by intro d hd; simp at hd; omega) (by simp)

theorem pal_1_1 : get_palindromes_from_sat_range 1 1 = some [1] := by
  simp only [get_palindromes_from_sat_range, digitsBE_one]
  rfl

theorem get_alpha_1_2 : get_alpha_from_sat_range 1 2 = some [] := by
  rw [get_alpha_from_sat_range, if_pos (by decide), if_pos (by decide), alphaLoop]
  rw [dif_neg (by decide)]

/-- On the query range `[1, 2)` the dispatcher always panics, whatever the
height resolver and curated tables are: the guards pass (both endpoints are
sat `1`), the Vintage/…/Palindrome/Alpha arms evaluate, and then the Omega
arm computes `2 / COIN_VALUE * COIN_VALUE - 1 = 0 - 1`, which underflows. -/
theorem rarities_1_2_none (env : RpcEnv) : get_block_rarities env 1 2 = none := by
  rw [get_block_rarities, if_neg (by omega), if_neg (by simp)]
  have homega : get_omega_from_sat_range 1 2 = none :=
    get_omega_small_none 1 2 (by decide)
  have hpal : get_palindromes_from_sat_range 1 (2 - 1) = some [1] := pal_1_1
  simp only [RARITY_KINDS, rarities_loop, get_block_rarity_chunks, hpal,
    get_alpha_1_2, homega, Option.map_none', Option.map_some']

theorem rarities_loop_total (env : RpcEnv) (s e : Nat) (ks : List BlockRarityRpc)
    (h : ∀ k ∈ ks, ∃ rs, get_block_rarity_chunks env k s e = some rs) :
    ∃ r, rarities_loop env s e ks = some r := by
  induction ks with
  | nil => exact ⟨[], rfl⟩
  | cons k ks ih =>
    obtain ⟨rs, hrs⟩ := h k (List.mem_cons_self k ks)
    obtain ⟨r, hr⟩ := ih (fun k' hk' => h k' (List.mem_cons_of_mem _ hk'))
    refine ⟨rs.filter (fun rc => !rc.2.isEmpty) ++ r, ?_⟩
    simp only [rarities_loop, hrs, hr, Option.map_some']

theorem chunks_total (env : RpcEnv) (s e : Nat) (hs : COIN_VALUE ≤ s)
    (hse : s < e) (he : e ≤ 10 ^ 19) (k : BlockRarityRpc) :
    ∃ rs, get_block_rarity_chunks env k s e = some rs := by
  have hU : 1 ≤ s := by
    simp only [COIN_VALUE] at hs
    omega
  cases k
  case Palindrome =>
    obtain ⟨l, hl⟩ := palindromes_total s (e - 1) (by omega) (by omega)
    simp only [get_block_rarity_chunks, hl]
    exact ⟨_, rfl⟩
  case Alpha =>
    have ha := get_alpha_eq s e hU hse (by
      simp only [alphaOverflowBound]
      have : (10:Nat) ^ 19 = 10000000000000000000 := by norm_num
      omega)
    simp only [get_block_rarity_chunks, ha, Option.map_some']
    exact ⟨_, rfl⟩
  case Omega =>
    have ho := get_omega_eq s e hs hse
    simp only [get_block_rarity_chunks, ho, Option.map_some']
    exact ⟨_, rfl⟩
  all_goals exact ⟨_, rfl⟩

/-- Under `COIN_VALUE ≤ start < end ≤ 10^19` (and equal endpoint heights),
every evaluator arm is total and the dispatcher returns `Ok`. -/
theorem get_block_rarities_ok (env : RpcEnv) (s e : Nat) (hs : COIN_VALUE ≤ s)
    (hse : s < e) (he : e ≤ 10 ^ 19)
    (hh : env.sat_height s = env.sat_height (e - 1)) :
    ∃ r, get_block_rarities env s e = some (.ok r) := by
  obtain ⟨r, hr⟩ := rarities_loop_total env s e RARITY_KINDS
    (fun k _ => chunks_total env s e hs hse he k)
  refine ⟨r, ?_⟩
  rw [get_block_rarities, if_neg (by omega), if_neg (by simp [hh]), hr,
    Option.map_some']

/-- A concrete environment for the witnesses: first-epoch height resolver
(`sat / (50 * COIN_VALUE)`) and empty extended tables. -/
def defaultEnv : RpcEnv where
  sat_height := fun n => n / (50 * COIN_VALUE)
  BLOCK286_BLOCK_HEIGHT := 286
  BLOCK666_BLOCK_HEIGHT := 666
  TAPROOT_BLOCK_HEIGHT := 709632
  BLOCK9_450_SAT_RANGE := (45000000000, 45000000450)
  JPEG_BLOCK_HEIGHTS := []
  LEGACY_RANGE_MAP := fun _ => []
  HITMAN_RANGE_MAP := fun _ => []
  is_perfect_palindrome := fun _ => false
  is_uniform_palindrome := fun _ => false

/-- **C4** (corrected): `get_block_rarities(start, end)` reports an error iff
`start ≥ end` or the two endpoint heights differ, and never silently
corrects a violating range; but on validating ranges it is only guaranteed
to return `Ok` under the additional preconditions
`COIN_VALUE ≤ start < end ≤ 10^19` — otherwise an evaluator arm can panic
(see the counterexample at `[1, 2)`). -/
theorem c4_error_iff (env : RpcEnv) (s e : Nat) :
    (∀ msg, get_block_rarities env s e = some (.error msg)
        → (e ≤ s ∨ env.sat_height s ≠ env.sat_height (e - 1)))
    ∧ ((e ≤ s ∨ env.sat_height s ≠ env.sat_height (e - 1))
        → ∃ msg, get_block_rarities env s e = some (.error msg))
    ∧ (COIN_VALUE ≤ s → s < e → e ≤ 10 ^ 19
        → env.sat_height s = env.sat_height (e - 1)
        → ∃ r, get_block_rarities env s e = some (.ok r)) := by
  refine ⟨?_, ?_, fun hs hse he hh => get_block_rarities_ok env s e hs hse he hh⟩
  · intro msg hmsg
    by_contra hcon
    push_neg at hcon
    obtain ⟨h1, h2⟩ := hcon
    rw [get_block_rarities, if_neg (by omega), if_neg (by simp [h2])] at hmsg
    cases hloop : rarities_loop env s e RARITY_KINDS with
    | none =>
      rw [hloop, Option.map_none'] at hmsg
      exact Option.noConfusion hmsg
    | some r =>
      rw [hloop, Option.map_some'] at hmsg
      exact Except.noConfusion (Option.some_inj.mp hmsg)
  · intro hbad
    by_cases hge : s ≥ e
    · exact ⟨_, by rw [get_block_rarities, if_pos hge]⟩
    · have hne : env.sat_height s ≠ env.sat_height (e - 1) := by
        rcases hbad with h | h
        · omega
        · exact h
      exact ⟨_, by rw [get_block_rarities, if_neg hge, if_pos hne]⟩

theorem c4_error_iff_witness :
    COIN_VALUE ≤ COIN_VALUE ∧ COIN_VALUE < COIN_VALUE + 1
      ∧ COIN_VALUE + 1 ≤ 10 ^ 19
      ∧ defaultEnv.sat_height COIN_VALUE = defaultEnv.sat_height (COIN_VALUE + 1 - 1)
      ∧ (∃ r, get_block_rarities defaultEnv COIN_VALUE (COIN_VALUE + 1)
          = some (.ok r)) :=
  ⟨le_refl _, by omega, by decide, rfl,
    (c4_error_iff defaultEnv COIN_VALUE (COIN_VALUE + 1)).2.2
      (le_refl _) (by omega) (by decide) rfl⟩

/-- C4 counterexample to the original claim: `[1, 2)` satisfies both validity
conditions for every height resolver (`start < end` and both endpoints are
sat `1`), yet the call panics (`none`) instead of returning `Ok`. -/
theorem c4_counterexample :
    (1:Nat) < 2 ∧ defaultEnv.sat_height 1 = defaultEnv.sat_height (2 - 1)
      ∧ get_block_rarities defaultEnv 1 2 = none
      ∧ ¬∃ r, get_block_rarities defaultEnv 1 2 = some (.ok r) := by
  refine ⟨by omega, rfl, rarities_1_2_none defaultEnv, ?_⟩
  rintro ⟨r, hr⟩
  rw [rarities_1_2_none defaultEnv] at hr
  exact Option.noConfusion hr

/-- **C7**: Scenario A fails in the code. For every environment (height
resolver and curated tables), the query `[1, 2)` passes both validity
guards — both endpoints are sat `1`, at a height of the resolver's choice —
but `get_block_rarities(1, 2)` never returns a report: after the Vintage
and Palindrome arms evaluate, the Omega arm computes
`2 / COIN_VALUE * COIN_VALUE - 1 = 0 - 1`, which underflows `u64`, so the
call panics (debug) or loops on a wrapped counter (release) instead of
succeeding with Vintage `[(1,2)]` and Palindrome `[(1,2)]`. -/
theorem c7_scenario_a_diverges (env : RpcEnv) :
    (1:Nat) < 2 ∧ env.sat_height 1 = env.sat_height (2 - 1)
      ∧ get_block_rarities env 1 2 = none :=
  ⟨by omega, rfl, rarities_1_2_none env⟩

/-- **C9**: for every query range, the Palindrome arm runs the enumerator
once and emits exactly four tagged outputs built from that single pass: the
base list as single-sat chunks `(p, p+1)`, the perfect and uniform lists as
the base filtered by the respective predicate, and the paliblock list equal
to the whole base when the block height's decimal string is palindromic and
empty otherwise. -/
theorem c9_palindrome_single_pass (env : RpcEnv) (s e : Nat) (pals : List Nat)
    (h : get_palindromes_from_sat_range s (e - 1) = some pals) :
    get_block_rarity_chunks env .Palindrome s e
      = some [(.Palindrome, pals.map (fun p => (p, p + 1))),
              (.PerfectPalinception,
                (pals.filter (fun p => env.is_perfect_palindrome (digitsBE p))).map
                  (fun p => (p, p + 1))),
              (.UniformPalinception,
                (pals.filter (fun p => env.is_uniform_palindrome (digitsBE p))).map
                  (fun p => (p, p + 1))),
              (.PaliblockPalindrome,
                if is_palindrome (env.sat_height s)
                  then pals.map (fun p => (p, p + 1)) else [])] := by
  simp only [get_block_rarity_chunks, h, palindromeChunksLoop_eq]

theorem c9_palindrome_single_pass_witness :
    get_palindromes_from_sat_range 0 (1 - 1) = some [0] ∧
      get_block_rarity_chunks defaultEnv .Palindrome 0 1
        = some [(.Palindrome, ([0] : List Nat).map (fun p => (p, p + 1))),
                (.PerfectPalinception,
                  (([0] : List Nat).filter
                    (fun p => defaultEnv.is_perfect_palindrome (digitsBE p))).map
                      (fun p => (p, p + 1))),
                (.UniformPalinception,
                  (([0] : List Nat).filter
                    (fun p => defaultEnv.is_uniform_palindrome (digitsBE p))).map
                      (fun p => (p, p + 1))),
                (.PaliblockPalindrome,
                  if is_palindrome (defaultEnv.sat_height 0)
                    then ([0] : List Nat).map (fun p => (p, p + 1)) else [])] :=
  ⟨by decide, c9_palindrome_single_pass defaultEnv 0 1 [0] (by decide)⟩
